import Mathlib

/-!
Xenia POSIX threading primitives: wait-condition core, events, semaphores, mutants,
timers, thread control, the public wait functions, signal dispatch, thread affinity and
`DurationToTimeSpec`.

A shallow embedding of `src/xenia/base/threading_posix.cc`.

Every primitive of the source is a `PosixCondition<T>` object reached through a
`PosixConditionBase*`.  The embedding keeps the objects in a heap indexed by
pointers, so that a handle list may name the same object twice, exactly as a
`std::vector<PosixConditionBase*>` may.

All state transitions of the source run under the single static monitor
(`PosixConditionBase::mutex_` / `cond_`).  The embedding is sequential: one
operation is one atomic step of the calling thread, and no other thread acts
while a call is in progress.  Under that reading

* `cond_.wait(lock, pred)` with a false predicate never returns (`none`);
* `cond_.wait_for(lock, timeout, pred)` returns the value of the predicate when
  the timeout expires, which is the value it had on entry.

Machine integers are naturals or integers with explicit reduction modulo `2^32`.

Calls into the host (`timer_create`, `timer_settime`, `timer_delete`, `pthread_kill`,
`sigaction`) and the host's `SIGRTMIN`, `SIGRTMAX` and `CPU_SETSIZE` are
parameters: the embedding takes their outcome as given.  A timer callback is named by a
number; what running it does to the heap is the parameter `callbacks`.
-/

namespace xe.threading

/-- Identity of a thread, the model of `std::thread::id` of a running thread. -/
abbrev ThreadId := Nat

/-- Address of a condition object, the model of `PosixConditionBase*`. -/
abbrev Ptr := Nat

/-- Number of values of a `uint32_t`. -/
def UINT32_MOD : Nat := 2 ^ 32

/-- The value `std::numeric_limits<size_t>::max()` on a 64-bit host. -/
def SIZE_MAX : Nat := 2 ^ 64 - 1

/-- The value `std::chrono::milliseconds::max()`, the infinite timeout. -/
def milliseconds_max : Int := 2 ^ 63 - 1

/-- Subtraction `a - b` of two `uint32_t` values: the difference modulo `2^32`. -/
def uint32_sub (a b : Nat) : Nat := if b ≤ a then a - b else a + UINT32_MOD - b

/-- Addition `a + b` of two `uint32_t` values: the sum modulo `2^32`. -/
def uint32_add (a b : Nat) : Nat := (a + b) % UINT32_MOD

/-- Conversion `static_cast<uint32_t>(x)` of an `int`. -/
def toUInt32 (x : Int) : Nat := (x % (2 ^ 32 : Int)).toNat

/-- Conversion of a `uint32_t` to `int`, as done by `*out_previous_count = count_`. -/
def toInt32 (n : Nat) : Int :=
  if n % 2 ^ 32 < 2 ^ 31 then ((n % 2 ^ 32 : Nat) : Int) else ((n % 2 ^ 32 : Nat) : Int) - 2 ^ 32

/-- Modelled from the spec: the enum `WaitResult` is declared in `threading.h`, which is
not part of the sources; these are the three results that `threading_posix.cc` produces. -/
inductive WaitResult where
  | kSuccess
  | kTimeout
  | kFailed
  deriving DecidableEq

/-- Fields of `PosixCondition<Event>`. -/
structure PosixCondition_Event where
  signal_ : Bool
  manual_reset_ : Bool
  deriving DecidableEq

/-- Fields of `PosixCondition<Semaphore>`; both are `uint32_t`. -/
structure PosixCondition_Semaphore where
  count_ : Nat
  maximum_count_ : Nat
  deriving DecidableEq

/-- Fields of `PosixCondition<Mutant>`; `count_` is a `uint32_t`, and `owner_ = none` is the
default-constructed `std::thread::id`, which equals the id of no running thread. -/
structure PosixCondition_Mutant where
  count_ : Nat
  owner_ : Option ThreadId
  deriving DecidableEq

/-- Fields of `PosixCondition<Timer>`; `callback_ = none` is the empty `std::function`
and `timer_ = none` is the null `timer_t`, which is also the value of the handle 0. -/
structure PosixCondition_Timer where
  callback_ : Option Nat
  timer_ : Option Nat
  signal_ : Bool
  manual_reset_ : Bool
  deriving DecidableEq

/-- The enum `PosixCondition<Thread>::State`. -/
inductive State where
  | kUninitialized
  | kRunning
  | kSuspended
  | kFinished
  deriving DecidableEq

/-- Fields of `PosixCondition<Thread>`; `thread_ = 0` is the null `pthread_t`. -/
structure PosixCondition_Thread where
  thread_ : Nat
  signaled_ : Bool
  exit_code_ : Int
  state_ : State
  suspend_count_ : Nat
  user_callback_ : Option Nat
  deriving DecidableEq

/-- The class `PosixConditionBase`, as the sum of its five specialisations. -/
inductive PosixConditionBase where
  | Event (c : PosixCondition_Event)
  | Semaphore (c : PosixCondition_Semaphore)
  | Mutant (c : PosixCondition_Mutant)
  | Timer (c : PosixCondition_Timer)
  | Thread (c : PosixCondition_Thread)
  deriving DecidableEq

/-- The memory holding the condition objects. -/
abbrev Heap := Ptr → PosixConditionBase

/-- Store `c` at address `p`. -/
def Heap.set (heap : Heap) (p : Ptr) (c : PosixConditionBase) : Heap :=
  fun q => if q = p then c else heap q

/-! ## signaled / post_execution -/

/-- The method `PosixCondition<Event>::signaled`. -/
def PosixCondition_Event.signaled (c : PosixCondition_Event) : Bool := c.signal_

/-- The method `PosixCondition<Event>::post_execution`. -/
def PosixCondition_Event.post_execution (c : PosixCondition_Event) : PosixCondition_Event :=
  if !c.manual_reset_ then { c with signal_ := false } else c

/-- The method `PosixCondition<Semaphore>::signaled`. -/
def PosixCondition_Semaphore.signaled (c : PosixCondition_Semaphore) : Bool :=
  decide (c.count_ > 0)

/-- The method `PosixCondition<Semaphore>::post_execution`: `count_--` on a `uint32_t`. -/
def PosixCondition_Semaphore.post_execution (c : PosixCondition_Semaphore) :
    PosixCondition_Semaphore :=
  { c with count_ := uint32_sub c.count_ 1 }

/-- The method `PosixCondition<Mutant>::signaled`, called by thread `self`. -/
def PosixCondition_Mutant.signaled (self : ThreadId) (c : PosixCondition_Mutant) : Bool :=
  decide (c.count_ = 0) || decide (c.owner_ = some self)

/-- The method `PosixCondition<Mutant>::post_execution`, called by thread `self`. -/
def PosixCondition_Mutant.post_execution (self : ThreadId) (c : PosixCondition_Mutant) :
    PosixCondition_Mutant :=
  { count_ := uint32_add c.count_ 1, owner_ := some self }

/-- The method `PosixCondition<Timer>::signaled`. -/
def PosixCondition_Timer.signaled (c : PosixCondition_Timer) : Bool := c.signal_

/-- The method `PosixCondition<Timer>::post_execution`. -/
def PosixCondition_Timer.post_execution (c : PosixCondition_Timer) : PosixCondition_Timer :=
  if !c.manual_reset_ then { c with signal_ := false } else c

/-- The method `PosixCondition<Thread>::signaled`. -/
def PosixCondition_Thread.signaled (c : PosixCondition_Thread) : Bool := c.signaled_

/-- The method `PosixCondition<Thread>::post_execution`: it joins the thread, which changes
no field of the object. -/
def PosixCondition_Thread.post_execution (c : PosixCondition_Thread) : PosixCondition_Thread := c

/-- Virtual dispatch of `signaled()` for the calling thread `self`. -/
def PosixConditionBase.signaled (self : ThreadId) : PosixConditionBase → Bool
  | .Event c => c.signaled
  | .Semaphore c => c.signaled
  | .Mutant c => c.signaled self
  | .Timer c => c.signaled
  | .Thread c => c.signaled

/-- Virtual dispatch of `post_execution()` for the calling thread `self`. -/
def PosixConditionBase.post_execution (self : ThreadId) : PosixConditionBase → PosixConditionBase
  | .Event c => .Event c.post_execution
  | .Semaphore c => .Semaphore c.post_execution
  | .Mutant c => .Mutant (c.post_execution self)
  | .Timer c => .Timer c.post_execution
  | .Thread c => .Thread c.post_execution

/-! ## The monitor -/

/-- The call `cond_.wait(lock, pred)`: returns once the predicate holds; with a false
predicate and no other thread running it never returns. -/
def cond_wait (pred : Bool) : Option Unit := if pred then some () else none

/-- The call `cond_.wait_for(lock, timeout, pred)`: the value of the predicate when the
wait ends; with no other thread running that is its value on entry. -/
def cond_wait_for (pred : Bool) : Bool := pred

/-- The method `PosixConditionBase::Wait`, called by thread `self` on the object `c`.
The result is `none` when the call never returns. -/
def PosixConditionBase.Wait (self : ThreadId) (c : PosixConditionBase) (timeout : Int) :
    Option (WaitResult × PosixConditionBase) :=
  let predicate := c.signaled self
  let executed : Option Bool :=
    if predicate then some true
    else if timeout = milliseconds_max then (cond_wait predicate).map (fun _ => true)
    else some (cond_wait_for predicate)
  match executed with
  | none => none
  | some true => some (WaitResult.kSuccess, c.post_execution self)
  | some false => some (WaitResult.kTimeout, c)

/-- The loop of `WaitMultiple` that runs once the aggregate holds: `rest` are the handles
from position `i` on, `first_signaled` the running minimum.  The loop counter of the source
is an `unsigned int`, here a natural number. -/
def WaitMultiple_loop (self : ThreadId) (wait_all : Bool) :
    List Ptr → Nat → Nat → Heap → Nat × Heap
  | [], _, first_signaled, heap => (first_signaled, heap)
  | p :: rest, i, first_signaled, heap =>
    if (heap p).signaled self then
      let first_signaled := if first_signaled > i then i else first_signaled
      let heap := heap.set p ((heap p).post_execution self)
      if !wait_all then (first_signaled, heap)
      else WaitMultiple_loop self wait_all rest (i + 1) first_signaled heap
    else WaitMultiple_loop self wait_all rest (i + 1) first_signaled heap

/-- The static method `PosixConditionBase::WaitMultiple`, called by thread `self`.
The result is `none` when the call never returns. -/
def PosixConditionBase.WaitMultiple (self : ThreadId) (heap : Heap) (handles : List Ptr)
    (wait_all : Bool) (timeout : Int) : Option ((WaitResult × Nat) × Heap) :=
  let aggregate : Bool :=
    if wait_all then handles.all (fun h => (heap h).signaled self)
    else handles.any (fun h => (heap h).signaled self)
  let executed : Option Bool :=
    if aggregate then some true
    else if timeout = milliseconds_max then (cond_wait aggregate).map (fun _ => true)
    else some (cond_wait_for aggregate)
  match executed with
  | none => none
  | some true =>
    let r := WaitMultiple_loop self wait_all handles 0 SIZE_MAX heap
    some ((WaitResult.kSuccess, r.1), r.2)
  | some false => some ((WaitResult.kTimeout, 0), heap)

/-! ## Event -/

/-- The constructor `PosixCondition<Event>(manual_reset, initial_state)`. -/
def PosixCondition_Event.mk_ (manual_reset initial_state : Bool) : PosixCondition_Event :=
  { signal_ := initial_state, manual_reset_ := manual_reset }

/-- The method `PosixCondition<Event>::Signal`, which is what `PosixEvent::Set` calls. -/
def PosixCondition_Event.Signal (c : PosixCondition_Event) : Bool × PosixCondition_Event :=
  (true, { c with signal_ := true })

/-- The method `PosixCondition<Event>::Reset`, which is what `PosixEvent::Reset` calls. -/
def PosixCondition_Event.Reset (c : PosixCondition_Event) : PosixCondition_Event :=
  { c with signal_ := false }

/-- The factory `Event::CreateManualResetEvent`. -/
def Event.CreateManualResetEvent (initial_state : Bool) : PosixCondition_Event :=
  PosixCondition_Event.mk_ true initial_state

/-- The factory `Event::CreateAutoResetEvent`. -/
def Event.CreateAutoResetEvent (initial_state : Bool) : PosixCondition_Event :=
  PosixCondition_Event.mk_ false initial_state

/-! ## Semaphore -/

/-- The method `PosixCondition<Semaphore>::Release(uint32_t, int*)`.  The argument
`out_previous_count` is the pointee of the out pointer (`none` for `nullptr`); the result
carries the pointee after the call. -/
def PosixCondition_Semaphore.Release (c : PosixCondition_Semaphore) (release_count : Nat)
    (out_previous_count : Option Int) : Bool × Option Int × PosixCondition_Semaphore :=
  if uint32_sub c.maximum_count_ c.count_ ≥ release_count then
    let out := match out_previous_count with
      | some _ => some (toInt32 c.count_)
      | none => none
    (true, out, { c with count_ := uint32_add c.count_ release_count })
  else (false, out_previous_count, c)

/-- The method `PosixCondition<Semaphore>::Signal`. -/
def PosixCondition_Semaphore.Signal (c : PosixCondition_Semaphore) :
    Bool × PosixCondition_Semaphore :=
  let r := c.Release 1 none
  (r.1, r.2.2)

/-- The method `PosixSemaphore::Release(int, int*)`. -/
def PosixSemaphore.Release (c : PosixCondition_Semaphore) (release_count : Int)
    (out_previous_count : Option Int) : Bool × Option Int × PosixCondition_Semaphore :=
  if release_count < 1 then (false, out_previous_count, c)
  else c.Release (toUInt32 release_count) out_previous_count

/-- The factory `Semaphore::Create(int, int)` with the casts of the `PosixSemaphore`
constructor. -/
def Semaphore.Create (initial_count maximum_count : Int) : PosixCondition_Semaphore :=
  { count_ := toUInt32 initial_count, maximum_count_ := toUInt32 maximum_count }

/-! ## Mutant -/

/-- The constructor `PosixCondition<Mutant>(initial_owner)` run by thread `self`, which is
what `Mutant::Create` calls. -/
def Mutant.Create (self : ThreadId) (initial_owner : Bool) : PosixCondition_Mutant :=
  if initial_owner then { count_ := 1, owner_ := some self } else { count_ := 0, owner_ := none }

/-- The method `PosixCondition<Mutant>::Release`, called by thread `self`. -/
def PosixCondition_Mutant.Release (self : ThreadId) (c : PosixCondition_Mutant) :
    Bool × PosixCondition_Mutant :=
  if c.owner_ = some self ∧ c.count_ > 0 then
    (true, { c with count_ := uint32_sub c.count_ 1 })
  else (false, c)

/-! ## Example states -/

/-- Scenario D of the specification: `[eventA unsignaled, eventB signaled]`. -/
def scenarioD : Heap := fun p =>
  if p = 0 then .Event { signal_ := false, manual_reset_ := false }
  else .Event { signal_ := true, manual_reset_ := false }

/-- An auto-reset event, a semaphore and a free mutant, all signaled. -/
def heapAll : Heap := fun p =>
  if p = 0 then .Event { signal_ := true, manual_reset_ := false }
  else if p = 1 then .Semaphore { count_ := 1, maximum_count_ := 2 }
  else .Mutant { count_ := 0, owner_ := none }

/-! ## Semaphore histories -/

/-- One operation on a semaphore: a `PosixSemaphore::Release` call with its two arguments,
or a `PosixConditionBase::Wait` call by a thread with a timeout. -/
inductive SemaphoreOp where
  | Release (release_count : Int) (out_previous_count : Option Int)
  | Wait (self : ThreadId) (timeout : Int)

/-- The semaphore held by a condition object, `d` when it holds another kind. -/
def PosixConditionBase.asSemaphore (d : PosixCondition_Semaphore) :
    PosixConditionBase → PosixCondition_Semaphore
  | .Semaphore c => c
  | _ => d

/-- State of the semaphore after one operation; a wait that does not return leaves the
object as it is. -/
def SemaphoreOp.apply (c : PosixCondition_Semaphore) : SemaphoreOp → PosixCondition_Semaphore
  | .Release release_count out_previous_count =>
    (PosixSemaphore.Release c release_count out_previous_count).2.2
  | .Wait self timeout =>
    match PosixConditionBase.Wait self (.Semaphore c) timeout with
    | some r => r.2.asSemaphore c
    | none => c

/-- State of the semaphore after a sequence of operations. -/
def SemaphoreOp.run (c : PosixCondition_Semaphore) (ops : List SemaphoreOp) :
    PosixCondition_Semaphore :=
  ops.foldl SemaphoreOp.apply c

/-! ## Wait histories -/

/-- Successive `Wait` calls on one object, one by each thread of the list, all with the same
timeout: the results in order and the final object, or `none` when some call never returns. -/
def Wait_each (timeout : Int) :
    PosixConditionBase → List ThreadId → Option (List WaitResult × PosixConditionBase)
  | c, [] => some ([], c)
  | c, self :: rest =>
    match PosixConditionBase.Wait self c timeout with
    | none => none
    | some r =>
      match Wait_each timeout r.2 rest with
      | none => none
      | some q => some (r.1 :: q.1, q.2)

/-! ## Mutant histories -/

/-- One operation on a mutant: a `PosixConditionBase::Wait` call by a thread with a timeout,
or a `PosixCondition<Mutant>::Release` call by a thread. -/
inductive MutantOp where
  | Wait (self : ThreadId) (timeout : Int)
  | Release (self : ThreadId)

/-- The mutant held by a condition object, `d` when it holds another kind. -/
def PosixConditionBase.asMutant (d : PosixCondition_Mutant) :
    PosixConditionBase → PosixCondition_Mutant
  | .Mutant c => c
  | _ => d

/-- State of the mutant after one operation; a wait that does not return leaves the object
as it is. -/
def MutantOp.apply (c : PosixCondition_Mutant) : MutantOp → PosixCondition_Mutant
  | .Wait self timeout =>
    match PosixConditionBase.Wait self (.Mutant c) timeout with
    | some r => r.2.asMutant c
    | none => c
  | .Release self => (PosixCondition_Mutant.Release self c).2

/-- State of the mutant after a sequence of operations. -/
def MutantOp.run (c : PosixCondition_Mutant) (ops : List MutantOp) : PosixCondition_Mutant :=
  ops.foldl MutantOp.apply c

/-- The operation is not a wait by the thread that holds the mutant `c`. -/
def MutantOp.not_reentrant (c : PosixCondition_Mutant) : MutantOp → Bool
  | .Wait self _ => !(decide (0 < c.count_) && decide (c.owner_ = some self))
  | .Release _ => true

/-- No wait of the history is made by the thread that holds the mutant at that moment. -/
def MutantOp.no_reentrant_wait : PosixCondition_Mutant → List MutantOp → Bool
  | _, [] => true
  | c, op :: rest => op.not_reentrant c && MutantOp.no_reentrant_wait (MutantOp.apply c op) rest

/-! ## Timer -/

/-- The host's POSIX interval timers, as seen by one call: the outcome of `timer_create`
(`none` when it returns -1, else the handle it stores), the return code of `timer_settime`
for a handle, an `it_value` in nanoseconds and an `it_interval` in milliseconds, and the
return code of `timer_delete` for a handle. -/
structure TimerHost where
  timer_create : Option Nat
  timer_settime : Nat → Int → Int → Int
  timer_delete : Nat → Int

/-- The value that a `timer_t` variable holds for the handle `t`: `timer_t` is a pointer
type, every value of it is a legal handle, and the handle 0 is the null pointer. -/
def timer_t_of (t : Nat) : Option Nat := if t = 0 then none else some t

/-- The constructor `PosixCondition<Timer>(manual_reset)`. -/
def PosixCondition_Timer.mk_ (manual_reset : Bool) : PosixCondition_Timer :=
  { callback_ := none, timer_ := none, signal_ := false, manual_reset_ := manual_reset }

/-- The method `PosixCondition<Timer>::Set(due_time, period, opt_callback)`. -/
def PosixCondition_Timer.Set (host : TimerHost) (c : PosixCondition_Timer)
    (due_time period : Int) (opt_callback : Option Nat) : Bool × PosixCondition_Timer :=
  let c := { c with callback_ := opt_callback, signal_ := false }
  match c.timer_ with
  | none =>
    match host.timer_create with
    | none => (false, c)
    | some t =>
      (decide (host.timer_settime t due_time period = 0), { c with timer_ := timer_t_of t })
  | some t => (decide (host.timer_settime t due_time period = 0), c)

/-- The interval timers that exist on the host after `Set`, given by their handles, when those
in `timers` existed before: `Set` calls `timer_create` exactly when `timer_` is null, and a
successful `timer_create` adds the timer whose handle it hands out. -/
def PosixCondition_Timer.Set_timers (host : TimerHost) (c : PosixCondition_Timer)
    (timers : List Nat) : List Nat :=
  match c.timer_ with
  | none =>
    match host.timer_create with
    | none => timers
    | some t => t :: timers
  | some _ => timers

/-- The locked block of `PosixCondition<Timer>::CompletionRoutine`: the callback captured in
the local variable and the state of the timer. -/
def PosixCondition_Timer.CompletionRoutine (c : PosixCondition_Timer) :
    Option Nat × PosixCondition_Timer :=
  let callback : Option Nat := match c.callback_ with
    | some f => some f
    | none => none
  (callback, { c with signal_ := true })

/-- The method `PosixCondition<Timer>::Cancel`. -/
def PosixCondition_Timer.Cancel (host : TimerHost) (c : PosixCondition_Timer) :
    Bool × PosixCondition_Timer :=
  match c.timer_ with
  | some t => (decide (host.timer_delete t = 0), { c with timer_ := none })
  | none => (true, c)

/-- The interval timers that exist on the host after `Cancel`, given by their handles, when
those in `timers` existed before: `Cancel` calls `timer_delete` exactly when `timer_` is not
null, for the handle it holds, and a successful `timer_delete` removes that timer. -/
def PosixCondition_Timer.Cancel_timers (host : TimerHost) (c : PosixCondition_Timer)
    (timers : List Nat) : List Nat :=
  match c.timer_ with
  | some t => if host.timer_delete t = 0 then timers.erase t else timers
  | none => timers

/-- The factory `Timer::CreateManualResetTimer`. -/
def Timer.CreateManualResetTimer : PosixCondition_Timer := PosixCondition_Timer.mk_ true

/-- The factory `Timer::CreateSynchronizationTimer`. -/
def Timer.CreateSynchronizationTimer : PosixCondition_Timer := PosixCondition_Timer.mk_ false

/-! ## Signal -/

/-- The whole of `PosixCondition<Timer>::CompletionRoutine` on the timer at address `p`:
the locked block, then the captured callback, whose effect on the heap is `callbacks f`.
The result carries the callback that was invoked. -/
def CompletionRoutine (callbacks : Nat → Heap → Heap) (heap : Heap) (p : Ptr)
    (c : PosixCondition_Timer) : Option Nat × Heap :=
  let r := c.CompletionRoutine
  let heap := heap.set p (.Timer r.2)
  match r.1 with
  | some f => (some f, callbacks f heap)
  | none => (none, heap)

/-- Virtual dispatch of `Signal()` on the object at address `p`, called by thread `self`. -/
def PosixConditionBase.Signal (self : ThreadId) (callbacks : Nat → Heap → Heap) (heap : Heap)
    (p : Ptr) : Bool × Heap :=
  match heap p with
  | .Event c => (c.Signal.1, heap.set p (.Event c.Signal.2))
  | .Semaphore c => (c.Signal.1, heap.set p (.Semaphore c.Signal.2))
  | .Mutant c =>
    ((PosixCondition_Mutant.Release self c).1,
      heap.set p (.Mutant (PosixCondition_Mutant.Release self c).2))
  | .Timer c => (true, (CompletionRoutine callbacks heap p c).2)
  | .Thread _ => (true, heap)

/-! ## Public wait functions -/

/-- A `WaitHandle*` argument: `none` when `dynamic_cast<PosixWaitHandle*>` yields `nullptr`
(the handle lacks the waitable capability), else the address of its `condition()`. -/
abbrev WaitHandle := Option Ptr

/-- The function `Wait(wait_handle, is_alertable, timeout)`, called by thread `self` whose
thread-local `alertable_state_` is given; the result carries the heap and the flag after the
call, and is `none` when the call never returns. -/
def Wait (self : ThreadId) (heap : Heap) (alertable_state_ : Bool) (wait_handle : WaitHandle)
    (is_alertable : Bool) (timeout : Int) : Option (WaitResult × Heap × Bool) :=
  match wait_handle with
  | none => some (WaitResult.kFailed, heap, alertable_state_)
  | some p =>
    let alertable_state_ := if is_alertable then true else alertable_state_
    match (heap p).Wait self timeout with
    | none => none
    | some r => some (r.1, heap.set p r.2, if is_alertable then false else alertable_state_)

/-- The function `SignalAndWait(wait_handle_to_signal, wait_handle_to_wait_on, is_alertable,
timeout)`, called by thread `self`. -/
def SignalAndWait (self : ThreadId) (callbacks : Nat → Heap → Heap) (heap : Heap)
    (alertable_state_ : Bool) (wait_handle_to_signal wait_handle_to_wait_on : WaitHandle)
    (is_alertable : Bool) (timeout : Int) : Option (WaitResult × Heap × Bool) :=
  match wait_handle_to_signal, wait_handle_to_wait_on with
  | some ps, some pw =>
    let alertable_state_ := if is_alertable then true else alertable_state_
    let s := PosixConditionBase.Signal self callbacks heap ps
    if s.1 then
      match (s.2 pw).Wait self timeout with
      | none => none
      | some r => some (r.1, s.2.set pw r.2, if is_alertable then false else alertable_state_)
    else some (WaitResult.kFailed, s.2, if is_alertable then false else alertable_state_)
  | _, _ => some (WaitResult.kFailed, heap, alertable_state_)

/-- The first loop of `WaitMultiple`: the conditions of the handles, collected in order in
`conditions`, or `none` as soon as a handle lacks the waitable capability. -/
def WaitMultiple_conditions : List WaitHandle → List Ptr → Option (List Ptr)
  | [], conditions => some conditions
  | none :: _, _ => none
  | some p :: rest, conditions => WaitMultiple_conditions rest (conditions ++ [p])

/-- The function `WaitMultiple(wait_handles, wait_handle_count, wait_all, is_alertable,
timeout)`, called by thread `self`; the list holds the `wait_handle_count` handles. -/
def WaitMultiple (self : ThreadId) (heap : Heap) (alertable_state_ : Bool)
    (wait_handles : List WaitHandle) (wait_all is_alertable : Bool) (timeout : Int) :
    Option ((WaitResult × Nat) × Heap × Bool) :=
  match WaitMultiple_conditions wait_handles [] with
  | none => some ((WaitResult.kFailed, 0), heap, alertable_state_)
  | some conditions =>
    let alertable_state_ := if is_alertable then true else alertable_state_
    match PosixConditionBase.WaitMultiple self heap conditions wait_all timeout with
    | none => none
    | some r => some (r.1, r.2, if is_alertable then false else alertable_state_)

/-- A semaphore at its maximum at address 0, signaled auto-reset events elsewhere. -/
def heapFull : Heap := fun p =>
  if p = 0 then .Semaphore { count_ := 2, maximum_count_ := 2 }
  else .Event { signal_ := true, manual_reset_ := false }

/-- A host on which every timer call succeeds; `timer_create` hands out the handle 1. -/
def hostOk : TimerHost :=
  { timer_create := some 1, timer_settime := fun _ _ _ => 0, timer_delete := fun _ => 0 }

/-- A host on which every timer call succeeds and `timer_create` hands out the handle 0, as
for the first interval timer of a process. -/
def hostFirst : TimerHost :=
  { timer_create := some 0, timer_settime := fun _ _ _ => 0, timer_delete := fun _ => 0 }

/-- A host that denies the creation of interval timers. -/
def hostDenied : TimerHost :=
  { timer_create := none, timer_settime := fun _ _ _ => 0, timer_delete := fun _ => 0 }

/-- A signaled synchronization timer that holds the callback 1 and no OS timer. -/
def timerSignaled : PosixCondition_Timer :=
  { callback_ := some 1, timer_ := none, signal_ := true, manual_reset_ := false }

/-! ## Thread control -/

/-- The method `PosixCondition<Thread>::WaitStarted`: returns once the state is not
`kUninitialized`. -/
def PosixCondition_Thread.WaitStarted (c : PosixCondition_Thread) : Option Unit :=
  cond_wait (decide (c.state_ ≠ State.kUninitialized))

/-- The method `PosixCondition<Thread>::Resume(out_previous_suspend_count)`.  The argument
`out_previous_suspend_count` is the pointee of the out pointer (`none` for `nullptr`); the
result carries the pointee after the call, and is `none` when the call never returns. -/
def PosixCondition_Thread.Resume (c : PosixCondition_Thread)
    (out_previous_suspend_count : Option Nat) :
    Option (Bool × Option Nat × PosixCondition_Thread) :=
  let out := out_previous_suspend_count.map (fun _ => 0)
  match c.WaitStarted with
  | none => none
  | some _ =>
    if c.state_ ≠ State.kSuspended then some (false, out, c)
    else
      let out := out.map (fun _ => c.suspend_count_)
      some (true, out, { c with suspend_count_ := uint32_sub c.suspend_count_ 1 })

/-- The method `PosixCondition<Thread>::Suspend(out_previous_suspend_count)`; `pthread_kill`
is the return code of the host's `pthread_kill`. -/
def PosixCondition_Thread.Suspend (c : PosixCondition_Thread)
    (out_previous_suspend_count : Option Nat) (pthread_kill : Int) :
    Option (Bool × Option Nat × PosixCondition_Thread) :=
  let out := out_previous_suspend_count.map (fun _ => 0)
  match c.WaitStarted with
  | none => none
  | some _ =>
    let out := out.map (fun _ => c.suspend_count_)
    let c := { c with state_ := State.kSuspended,
                      suspend_count_ := uint32_add c.suspend_count_ 1 }
    some (decide (pthread_kill = 0), out, c)

/-- How a call of `Terminate` ends: it returns to the caller, it ends the calling thread in
`pthread_exit`, or it stays in the endless loop. -/
inductive TerminateOutcome where
  | returned
  | exited
  | spins
  deriving DecidableEq

/-- The method `PosixCondition<Thread>::Terminate(exit_code)`, called by the thread whose
`pthread_self()` is given. -/
def PosixCondition_Thread.Terminate (c : PosixCondition_Thread) (pthread_self : Nat)
    (exit_code : Int) : TerminateOutcome × PosixCondition_Thread :=
  let is_current_thread : Bool := decide (pthread_self = c.thread_)
  if c.state_ = State.kFinished then
    if is_current_thread then (TerminateOutcome.spins, c) else (TerminateOutcome.returned, c)
  else
    let c := { c with state_ := State.kFinished, exit_code_ := exit_code, signaled_ := true }
    if is_current_thread then (TerminateOutcome.exited, c) else (TerminateOutcome.returned, c)

/-- The method `PosixCondition<Thread>::WaitSuspended`, run by the target on delivery of the
suspend signal: it returns once `suspend_count_` is 0. -/
def PosixCondition_Thread.WaitSuspended (c : PosixCondition_Thread) :
    Option PosixCondition_Thread :=
  match cond_wait (decide (c.suspend_count_ = 0)) with
  | none => none
  | some _ => some { c with state_ := State.kRunning }

/-- A thread whose body has returned. -/
def threadFinished : PosixCondition_Thread :=
  { thread_ := 1, signaled_ := true, exit_code_ := 0, state_ := State.kFinished,
    suspend_count_ := 0, user_callback_ := none }

/-- A thread suspended once. -/
def threadSuspended : PosixCondition_Thread :=
  { thread_ := 1, signaled_ := false, exit_code_ := 0, state_ := State.kSuspended,
    suspend_count_ := 1, user_callback_ := none }

/-! ## Thread histories -/

/-- Repeated `Suspend(&previous)` calls on one thread, all with `pthread_kill` succeeding: the
reported previous counts in order and the final state, or `none` when a call never returns. -/
def Suspend_times : Nat → PosixCondition_Thread → Option (List Nat × PosixCondition_Thread)
  | 0, c => some ([], c)
  | k + 1, c =>
    match c.Suspend (some 0) 0 with
    | none => none
    | some r =>
      match Suspend_times k r.2.2 with
      | none => none
      | some q => some (r.2.1.getD 0 :: q.1, q.2)

/-- One step in the life of a thread object: a `Suspend` call (with the return code of
`pthread_kill`), a `Resume` call, or the wake-up of the target in `WaitSuspended`. -/
inductive ThreadOp where
  | Suspend (pthread_kill : Int)
  | Resume
  | WakeUp

/-- State of the thread object after one step; a call that does not return leaves the
object as it is. -/
def ThreadOp.apply (c : PosixCondition_Thread) : ThreadOp → PosixCondition_Thread
  | .Suspend pthread_kill =>
    match c.Suspend none pthread_kill with
    | some r => r.2.2
    | none => c
  | .Resume =>
    match c.Resume none with
    | some r => r.2.2
    | none => c
  | .WakeUp =>
    match c.WaitSuspended with
    | some c' => c'
    | none => c

/-- State of the thread object after a sequence of steps. -/
def ThreadOp.run (c : PosixCondition_Thread) (ops : List ThreadOp) : PosixCondition_Thread :=
  ops.foldl ThreadOp.apply c

/-- A running thread that was never suspended. -/
def threadRunning : PosixCondition_Thread :=
  { thread_ := 1, signaled_ := false, exit_code_ := 0, state_ := State.kRunning,
    suspend_count_ := 0, user_callback_ := none }

/-- The part of `PosixCondition<Thread>::ThreadStartRoutine` that runs before the body:
the state is published, and a thread created suspended sets `suspend_count_` to 1 (and then
waits for it to be 0). -/
def ThreadStartRoutine_enter (c : PosixCondition_Thread) (create_suspended : Bool) :
    PosixCondition_Thread :=
  let c := { c with state_ := if create_suspended then State.kSuspended else State.kRunning }
  if create_suspended then { c with suspend_count_ := 1 } else c

/-- The part of `PosixCondition<Thread>::ThreadStartRoutine` that runs after the body has
returned. -/
def ThreadStartRoutine_leave (c : PosixCondition_Thread) : PosixCondition_Thread :=
  let c := { c with state_ := State.kFinished }
  { c with exit_code_ := 0, signaled_ := true }

/-! ## Signal dispatch -/

/-- The enum class `SignalType`, by the `int` value of its enumerators (the build without
`XE_PLATFORM_ANDROID`); a `static_cast<SignalType>` may yield any `int`. -/
abbrev SignalType := Int

/-- The enumerator `SignalType::kHighResolutionTimer`. -/
def SignalType.kHighResolutionTimer : SignalType := 0

/-- The enumerator `SignalType::kTimer`. -/
def SignalType.kTimer : SignalType := 1

/-- The enumerator `SignalType::kThreadSuspend`. -/
def SignalType.kThreadSuspend : SignalType := 2

/-- The enumerator `SignalType::kThreadUserCallback`. -/
def SignalType.kThreadUserCallback : SignalType := 3

/-- The enumerator `SignalType::k_Count`, the number of kinds. -/
def SignalType.k_Count : SignalType := 4

/-- The function `GetSystemSignal(num)` for the host's `SIGRTMIN` and `SIGRTMAX`: the signal
number, and whether `assert_true(result < SIGRTMAX)` holds. -/
def GetSystemSignal (SIGRTMIN SIGRTMAX : Int) (num : SignalType) : Int × Bool :=
  let result := SIGRTMIN + num
  (result, decide (result < SIGRTMAX))

/-- The function `GetSystemSignalType(num)` for the host's `SIGRTMIN`. -/
def GetSystemSignalType (SIGRTMIN : Int) (num : Int) : SignalType := num - SIGRTMIN

/-- The function `install_signal_handler(type)` run by a thread whose thread-local array
`signal_handler_installed` is given; `sigaction` is the return code of the host's call for a
signal number.  The result is the array after the call and the signal number `sigaction` was
called for, `none` when the function returned without calling it. -/
def install_signal_handler (SIGRTMIN SIGRTMAX : Int) (sigaction : Int → Int)
    (signal_handler_installed : SignalType → Bool) (type : SignalType) :
    (SignalType → Bool) × Option Int :=
  if signal_handler_installed type then (signal_handler_installed, none)
  else
    let signo := (GetSystemSignal SIGRTMIN SIGRTMAX type).1
    if sigaction signo = -1 then
      (fun t => if t = type then true else signal_handler_installed t, some signo)
    else (signal_handler_installed, some signo)

/-- The method `PosixCondition<Thread>::QueueUserCallback(callback)`, up to the sending of
the signal; `none` stands for an empty `std::function`. -/
def PosixCondition_Thread.QueueUserCallback (c : PosixCondition_Thread)
    (callback : Option Nat) : Option PosixCondition_Thread :=
  match c.WaitStarted with
  | none => none
  | some _ => some { c with user_callback_ := callback }

/-- The method `PosixCondition<Thread>::CallUserCallback`: the callback it invokes; `none`
when `user_callback_` is empty, in which case the call throws. -/
def PosixCondition_Thread.CallUserCallback (c : PosixCondition_Thread) : Option Nat :=
  c.user_callback_

/-- How a run of `signal_handler` ends: `fatal` when the `assert_always()` of the default
branch is reached; `blocked` when the handler waits in `WaitSuspended`; `threw` when an empty
`std::function` is called; `undefined` when the payload is not what the kind requires (a null
`current_thread_`, an object of another class), where the source has no defined behaviour;
`returned` when the handler returns, with the callbacks it invoked and the heap it leaves. -/
inductive SignalOutcome where
  | fatal
  | blocked
  | threw
  | undefined
  | returned (invoked : List Nat) (heap : Heap)

/-- The function `signal_handler(signal, info, context)` run by the interrupted thread, whose
thread-locals `alertable_state_` and `current_thread_` are given; `sival_ptr` is the payload
`info->si_value.sival_ptr`: the number of the callback for the high-resolution timer, the
address of the object for the other kinds. -/
def signal_handler (SIGRTMIN : Int) (callbacks : Nat → Heap → Heap) (heap : Heap)
    (alertable_state_ : Bool) (current_thread_ : Option Ptr) (signal : Int) (sival_ptr : Nat) :
    SignalOutcome :=
  let type := GetSystemSignalType SIGRTMIN signal
  if type = SignalType.kHighResolutionTimer then
    SignalOutcome.returned [sival_ptr] (callbacks sival_ptr heap)
  else if type = SignalType.kTimer then
    match heap sival_ptr with
    | .Timer c =>
      let r := CompletionRoutine callbacks heap sival_ptr c
      SignalOutcome.returned r.1.toList r.2
    | _ => SignalOutcome.undefined
  else if type = SignalType.kThreadSuspend then
    match current_thread_ with
    | none => SignalOutcome.undefined
    | some p =>
      match heap p with
      | .Thread c =>
        match c.WaitSuspended with
        | none => SignalOutcome.blocked
        | some c' => SignalOutcome.returned [] (heap.set p (.Thread c'))
      | _ => SignalOutcome.undefined
  else if type = SignalType.kThreadUserCallback then
    if alertable_state_ then
      match heap sival_ptr with
      | .Thread c =>
        match c.CallUserCallback with
        | some f => SignalOutcome.returned [f] (callbacks f heap)
        | none => SignalOutcome.threw
      | _ => SignalOutcome.undefined
    else SignalOutcome.returned [] heap
  else SignalOutcome.fatal

/-- A running thread with the user callback 9 queued. -/
def threadQueued : PosixCondition_Thread :=
  { thread_ := 1, signaled_ := false, exit_code_ := 0, state_ := State.kRunning,
    suspend_count_ := 0, user_callback_ := some 9 }

/-! ## Lock scopes of Release -/

/-- The condition of the `if` in `PosixCondition<Semaphore>::Release`, which the source
evaluates before it takes `mutex_`. -/
def PosixCondition_Semaphore.Release_guard (c : PosixCondition_Semaphore)
    (release_count : Nat) : Bool :=
  decide (uint32_sub c.maximum_count_ c.count_ ≥ release_count)

/-- The block of `PosixCondition<Semaphore>::Release` that runs with `mutex_` held: the out
value after it and the state of the semaphore. -/
def PosixCondition_Semaphore.Release_locked (c : PosixCondition_Semaphore)
    (release_count : Nat) (out_previous_count : Option Int) :
    Option Int × PosixCondition_Semaphore :=
  let out := match out_previous_count with
    | some _ => some (toInt32 c.count_)
    | none => none
  (out, { c with count_ := uint32_add c.count_ release_count })

/-- A step of a thread that is inside `Release(release_count, nullptr)`: the evaluation of
the guard, or the locked block. -/
inductive ReleaseStep where
  | guard (thread : ThreadId)
  | locked (thread : ThreadId)

/-- The semaphore together with, for each thread, the value its guard had when the thread
evaluated it. -/
structure ReleaseRun where
  semaphore : PosixCondition_Semaphore
  passed : ThreadId → Bool

/-- One step of an interleaving of `Release(release_count, nullptr)` calls: a guard reads
the semaphore as it is at that moment; a locked block runs only in a thread whose guard
held, and adds to the count as it is at that moment. -/
def ReleaseStep.apply (release_count : Nat) (s : ReleaseRun) : ReleaseStep → ReleaseRun
  | .guard t =>
    { s with passed := fun u =>
        if u = t then s.semaphore.Release_guard release_count else s.passed u }
  | .locked t =>
    if s.passed t then
      { s with semaphore := (s.semaphore.Release_locked release_count none).2 }
    else s

/-- The run of an interleaving from a semaphore on which no thread has yet evaluated its
guard. -/
def ReleaseStep.run (release_count : Nat) (c : PosixCondition_Semaphore)
    (steps : List ReleaseStep) : ReleaseRun :=
  steps.foldl (ReleaseStep.apply release_count) { semaphore := c, passed := fun _ => false }

/-! ## Thread affinity -/

/-- Conversion of an `int` to `uint64_t`. -/
def toUInt64 (x : Int) : Nat := (x % (2 ^ 64 : Int)).toNat

/-- The expression `x << i` on an `int` `x` that is 0 or 1: for `i < 32` the product
`x * 2^i` converted to `int`; for `i ≥ 32` the language defines no result, and `ub x i`
stands for what the compiled code yields. -/
def int_shl (ub : Int → Nat → Int) (x : Int) (i : Nat) : Int :=
  if i < 32 then toInt32 (toUInt32 (x * 2 ^ i)) else ub x i

/-- What x86 yields for a shift of an `int` by 32 or more: the count is taken modulo 32. -/
def x86_shl (x : Int) (i : Nat) : Int := toInt32 (toUInt32 (x * 2 ^ (i % 32)))

/-- The operation `CPU_SET(i, &cpu_set)` on a set of CPUs. -/
def CPU_SET (i : Nat) (cpu_set : Nat → Bool) : Nat → Bool :=
  fun j => if j = i then true else cpu_set j

/-- The set of CPUs that `PosixCondition<Thread>::set_affinity_mask(mask)` hands to the
host: the loop over `i = 0 .. 63` with the test `mask & (1 << i)`, where `1 << i` is an
`int` that is converted to `uint64_t` for the `&`. -/
def set_affinity_mask (ub : Int → Nat → Int) (mask : Nat) : Nat → Bool :=
  (List.range 64).foldl
    (fun cpu_set i =>
      if mask &&& toUInt64 (int_shl ub 1 i) ≠ 0 then CPU_SET i cpu_set else cpu_set)
    (fun _ => false)

/-- The value of `PosixCondition<Thread>::affinity_mask()` for the set of CPUs the host
reports: the loop over `i = 0 .. min(CPU_SETSIZE, 64) - 1` with `result |= set << i`, where
`set` is the `int` 0 or 1 of `CPU_ISSET` and the shifted `int` is converted to `uint64_t`. -/
def affinity_mask (ub : Int → Nat → Int) (CPU_SETSIZE : Nat) (cpu_set : Nat → Bool) : Nat :=
  let cpu_count := min CPU_SETSIZE 64
  (List.range cpu_count).foldl
    (fun result i =>
      let set : Int := if cpu_set i then 1 else 0
      result ||| toUInt64 (int_shl ub set i))
    0

/-! ## DurationToTimeSpec -/

/-- The function `DurationToTimeSpec(duration)` on the count of nanoseconds that
`duration_cast<nanoseconds>` yields: `ldiv(count, 1000000000L)`, which truncates toward
zero, gives `tv_sec` (the quotient) and `tv_nsec` (the remainder). -/
def DurationToTimeSpec (nanoseconds : Int) : Int × Int :=
  (Int.tdiv nanoseconds 1000000000, Int.tmod nanoseconds 1000000000)

/-! # Theorems -/

/-! ## Theorems: WaitMultiple -/

/-- The loop in wait-any mode stops at the first signaled handle. -/
theorem WaitMultiple_loop_any (self : ThreadId) (heap : Heap) :
    ∀ (l : List Ptr) (i : Nat), i + l.length ≤ SIZE_MAX →
      (∃ p ∈ l, (heap p).signaled self = true) →
      ∃ k p, l[k]? = some p ∧ (heap p).signaled self = true ∧
        (∀ j q, j < k → l[j]? = some q → (heap q).signaled self = false) ∧
        WaitMultiple_loop self false l i SIZE_MAX heap
          = (i + k, heap.set p ((heap p).post_execution self)) := by
  intro l
  induction l with
  | nil => intro i _ h; obtain ⟨p, hp, _⟩ := h; simp at hp
  | cons a rest ih =>
    intro i hlen hex
    by_cases ha : (heap a).signaled self = true
    · refine ⟨0, a, by simp, ha, ?_, ?_⟩
      · intro j q hj; omega
      · have hi : SIZE_MAX > i := by simp only [List.length_cons] at hlen; omega
        simp [WaitMultiple_loop, ha, hi]
    · have hex' : ∃ p ∈ rest, (heap p).signaled self = true := by
        obtain ⟨p, hp, hs⟩ := hex
        rcases List.mem_cons.mp hp with rfl | hp
        · exact absurd hs ha
        · exact ⟨p, hp, hs⟩
      have hlen' : (i + 1) + rest.length ≤ SIZE_MAX := by
        simp only [List.length_cons] at hlen; omega
      obtain ⟨k, p, hk, hs, hmin, heq⟩ := ih (i + 1) hlen' hex'
      refine ⟨k + 1, p, by simpa using hk, hs, ?_, ?_⟩
      · intro j q hj hq
        cases j with
        | zero =>
          simp at hq; subst hq
          simpa using ha
        | succ j =>
          simp at hq
          exact hmin j q (by omega) hq
      · simp only [WaitMultiple_loop, ha]
        simp only [Bool.false_eq_true, if_false]
        rw [heq]; congr 1; omega

/-- C1: for a handle list (of fewer than 2^32 entries, the range of the loop counter)
holding a signaled handle, hence non-empty, `WaitMultiple` with `wait_all = false`
returns `(kSuccess, k)` for the lowest position `k` whose handle is signaled, whatever the
timeout; the object at that position gets its `post_execution` and no other object of the
heap changes. -/
theorem WaitMultiple_any_lowest_index (self : ThreadId) (heap : Heap) (handles : List Ptr)
    (timeout : Int) (hlen : handles.length < 2 ^ 32)
    (hsig : ∃ p ∈ handles, (heap p).signaled self = true) :
    ∃ k p, handles[k]? = some p ∧ (heap p).signaled self = true ∧
      (∀ j q, j < k → handles[j]? = some q → (heap q).signaled self = false) ∧
      PosixConditionBase.WaitMultiple self heap handles false timeout
        = some ((WaitResult.kSuccess, k), heap.set p ((heap p).post_execution self)) := by
  have hl : 0 + handles.length ≤ SIZE_MAX := by
    simp only [SIZE_MAX]; omega
  obtain ⟨k, p, hk, hs, hmin, heq⟩ := WaitMultiple_loop_any self heap handles 0 hl hsig
  refine ⟨k, p, hk, hs, hmin, ?_⟩
  have hany : handles.any (fun h => (heap h).signaled self) = true := by
    simpa [List.any_eq_true] using hsig
  simp only [PosixConditionBase.WaitMultiple, Bool.false_eq_true, if_false, hany, if_true]
  rw [heq]; simp

/-- C1 at Scenario D. -/
theorem WaitMultiple_any_lowest_index_witness :
    ∃ k p, [0, 1][k]? = some p ∧ (scenarioD p).signaled 7 = true ∧
      (∀ j q, j < k → [0, 1][j]? = some q → (scenarioD q).signaled 7 = false) ∧
      PosixConditionBase.WaitMultiple 7 scenarioD [0, 1] false 0
        = some ((WaitResult.kSuccess, k), scenarioD.set p ((scenarioD p).post_execution 7)) :=
  WaitMultiple_any_lowest_index 7 scenarioD [0, 1] 0 (by decide)
    ⟨1, by decide, by decide⟩

/-- Scenario D of the specification, evaluated: the result is `(kSuccess, 1)`, event A is
untouched and event B is cleared. -/
theorem scenarioD_result :
    (PosixConditionBase.WaitMultiple 7 scenarioD [0, 1] false 0).map
        (fun r => (r.1, r.2 0, r.2 1))
      = some ((WaitResult.kSuccess, 1),
          .Event { signal_ := false, manual_reset_ := false },
          .Event { signal_ := false, manual_reset_ := false }) := by
  decide

/-- Decrement of a positive `uint32_t` does not wrap. -/
theorem uint32_pred (n : Nat) (h0 : 0 < n) : uint32_sub n 1 = n - 1 := by
  unfold uint32_sub; rw [if_pos (show 1 ≤ n from h0)]

/-- The loop in wait-all mode over pairwise distinct, signaled handles applies
`post_execution` to each of them and to nothing else. -/
theorem WaitMultiple_loop_all (self : ThreadId) :
    ∀ (l : List Ptr) (i first : Nat) (heap : Heap), l.Nodup →
      (∀ p ∈ l, (heap p).signaled self = true) →
      (WaitMultiple_loop self true l i first heap).2
        = fun q => if q ∈ l then (heap q).post_execution self else heap q := by
  intro l
  induction l with
  | nil => intro i first heap _ _; simp [WaitMultiple_loop]
  | cons a rest ih =>
    intro i first heap hnd hall
    have ha : (heap a).signaled self = true := hall a (List.mem_cons_self _ _)
    obtain ⟨hnot, hnd'⟩ := List.nodup_cons.mp hnd
    have hsame : ∀ p ∈ rest, (heap.set a ((heap a).post_execution self)) p = heap p := by
      intro p hp
      have : p ≠ a := fun h => hnot (h ▸ hp)
      simp [Heap.set, this]
    have hall' : ∀ p ∈ rest,
        ((heap.set a ((heap a).post_execution self)) p).signaled self = true := by
      intro p hp
      rw [hsame p hp]
      exact hall p (List.mem_cons_of_mem _ hp)
    simp only [WaitMultiple_loop, ha, if_true, Bool.not_true, Bool.false_eq_true, if_false]
    rw [ih _ _ _ hnd' hall']
    funext q
    by_cases hq : q = a
    · subst hq
      simp [hnot, Heap.set]
    · by_cases hr : q ∈ rest
      · simp [hq, hr, Heap.set]
      · simp [hq, hr, Heap.set]

/-- C2: for pairwise distinct handles, `WaitMultiple` with `wait_all = true` and a zero
timeout returns `kSuccess` exactly when every listed handle is signaled; on success every
listed object gets `post_execution` once (an auto-reset event is cleared, a semaphore count
drops by one without wrapping, a mutant is owned by the caller) and every other object is
unchanged; otherwise the result is `(kTimeout, 0)` and the heap is unchanged. -/
theorem WaitMultiple_all_zero_timeout (self : ThreadId) (heap : Heap) (handles : List Ptr)
    (hnd : handles.Nodup) :
    ((∃ k heap', PosixConditionBase.WaitMultiple self heap handles true 0
          = some ((WaitResult.kSuccess, k), heap'))
        ↔ ∀ p ∈ handles, (heap p).signaled self = true) ∧
    ((∀ p ∈ handles, (heap p).signaled self = true) →
      ∃ k heap', PosixConditionBase.WaitMultiple self heap handles true 0
          = some ((WaitResult.kSuccess, k), heap') ∧
        (∀ p ∈ handles, heap' p = (heap p).post_execution self) ∧
        (∀ p, p ∉ handles → heap' p = heap p) ∧
        (∀ p ∈ handles, ∀ e, heap p = .Event e → e.manual_reset_ = false →
          heap' p = .Event { e with signal_ := false }) ∧
        (∀ p ∈ handles, ∀ s, heap p = .Semaphore s →
          1 ≤ s.count_ ∧ heap' p = .Semaphore { s with count_ := s.count_ - 1 }) ∧
        (∀ p ∈ handles, ∀ m, heap p = .Mutant m →
          heap' p = .Mutant { count_ := uint32_add m.count_ 1, owner_ := some self })) ∧
    (¬ (∀ p ∈ handles, (heap p).signaled self = true) →
      PosixConditionBase.WaitMultiple self heap handles true 0
        = some ((WaitResult.kTimeout, 0), heap)) := by
  have hzero : ¬ ((0 : Int) = milliseconds_max) := by simp [milliseconds_max]
  have hsucc : (∀ p ∈ handles, (heap p).signaled self = true) →
      PosixConditionBase.WaitMultiple self heap handles true 0
        = some ((WaitResult.kSuccess, (WaitMultiple_loop self true handles 0 SIZE_MAX heap).1),
            fun q => if q ∈ handles then (heap q).post_execution self else heap q) := by
    intro hall
    have hagg : handles.all (fun h => (heap h).signaled self) = true := by
      simpa [List.all_eq_true] using hall
    simp only [PosixConditionBase.WaitMultiple, if_true, hagg]
    rw [WaitMultiple_loop_all self handles 0 SIZE_MAX heap hnd hall]
  have hfail : ¬ (∀ p ∈ handles, (heap p).signaled self = true) →
      PosixConditionBase.WaitMultiple self heap handles true 0
        = some ((WaitResult.kTimeout, 0), heap) := by
    intro hall
    have hagg : handles.all (fun h => (heap h).signaled self) = false := by
      rw [Bool.eq_false_iff]
      intro h
      exact hall (by simpa [List.all_eq_true] using h)
    simp [PosixConditionBase.WaitMultiple, hagg, hzero, cond_wait_for]
  refine ⟨⟨?_, ?_⟩, ?_, hfail⟩
  · rintro ⟨k, heap', h⟩
    by_contra hall
    rw [hfail hall] at h
    simp at h
  · intro hall
    exact ⟨_, _, hsucc hall⟩
  · intro hall
    refine ⟨_, _, hsucc hall, ?_, ?_, ?_, ?_, ?_⟩
    · intro p hp; simp [hp]
    · intro p hp; simp [hp]
    · intro p hp e he hm
      simp [hp, he, PosixConditionBase.post_execution, PosixCondition_Event.post_execution, hm]
    · intro p hp s hs
      have hsig := hall p hp
      rw [hs] at hsig
      simp only [PosixConditionBase.signaled, PosixCondition_Semaphore.signaled,
        decide_eq_true_eq] at hsig
      refine ⟨hsig, ?_⟩
      simp only [hp, if_true, hs, PosixConditionBase.post_execution,
        PosixCondition_Semaphore.post_execution, uint32_pred s.count_ hsig]
    · intro p hp m hm
      simp [hp, hm, PosixConditionBase.post_execution, PosixCondition_Mutant.post_execution]

/-- C2 at a list of three distinct signaled handles. -/
theorem WaitMultiple_all_zero_timeout_witness :
    [0, 1, 2].Nodup ∧
    ((∃ k heap', PosixConditionBase.WaitMultiple 7 heapAll [0, 1, 2] true 0
          = some ((WaitResult.kSuccess, k), heap'))
        ↔ ∀ p ∈ [0, 1, 2], (heapAll p).signaled 7 = true) :=
  ⟨by decide, (WaitMultiple_all_zero_timeout 7 heapAll [0, 1, 2] (by decide)).1⟩

/-! ## Theorems: Semaphore -/

/-- Conversion of an `int` between 0 and `INT_MAX` to `uint32_t` keeps the value. -/
theorem toUInt32_of_nonneg (x : Int) (h0 : 0 ≤ x) (h1 : x < 2 ^ 31) :
    ((toUInt32 x : Nat) : Int) = x := by
  unfold toUInt32
  rw [Int.toNat_of_nonneg (Int.emod_nonneg _ (by norm_num))]
  omega

/-- Every value of `toUInt32` is a `uint32_t`. -/
theorem toUInt32_lt (x : Int) : toUInt32 x < 2 ^ 32 := by
  unfold toUInt32
  have h1 : x % (2 ^ 32 : Int) < 2 ^ 32 := Int.emod_lt_of_pos _ (by norm_num)
  have h0 : 0 ≤ x % (2 ^ 32 : Int) := Int.emod_nonneg _ (by norm_num)
  omega

/-- The inner release keeps `count_ ≤ maximum_count_`. -/
theorem Semaphore_Release_inner_le (c : PosixCondition_Semaphore) (n : Nat) (out : Option Int)
    (hc : c.count_ ≤ c.maximum_count_) (hm : c.maximum_count_ < 2 ^ 32) :
    (c.Release n out).2.2.count_ ≤ c.maximum_count_ ∧
      (c.Release n out).2.2.maximum_count_ = c.maximum_count_ := by
  unfold PosixCondition_Semaphore.Release
  split
  · rename_i h
    refine ⟨?_, rfl⟩
    simp only [uint32_sub, if_pos hc] at h
    simp only [uint32_add, UINT32_MOD]
    omega
  · exact ⟨hc, rfl⟩

/-- A public release keeps `count_ ≤ maximum_count_`. -/
theorem PosixSemaphore_Release_le (c : PosixCondition_Semaphore) (n : Int) (out : Option Int)
    (hc : c.count_ ≤ c.maximum_count_) (hm : c.maximum_count_ < 2 ^ 32) :
    (PosixSemaphore.Release c n out).2.2.count_ ≤ c.maximum_count_ ∧
      (PosixSemaphore.Release c n out).2.2.maximum_count_ = c.maximum_count_ := by
  unfold PosixSemaphore.Release
  split
  · exact ⟨hc, rfl⟩
  · exact Semaphore_Release_inner_le c _ out hc hm

/-- C3: on a semaphore with `count_ ≤ maximum_count_`, a release of `n ≥ 1` (an `int`) with
`count_ + n > maximum_count_` returns false, leaves the object unchanged and does not write
the out parameter; and no release, whatever its arguments, leaves `count_` above
`maximum_count_`. -/
theorem PosixSemaphore_Release_over_max (c : PosixCondition_Semaphore)
    (hc : c.count_ ≤ c.maximum_count_) (hm : c.maximum_count_ < 2 ^ 32) :
    (∀ (n : Int) (out : Option Int), 1 ≤ n → n < 2 ^ 31 →
        (c.count_ : Int) + n > c.maximum_count_ →
        PosixSemaphore.Release c n out = (false, out, c)) ∧
    (∀ (n : Int) (out : Option Int),
        (PosixSemaphore.Release c n out).2.2.count_ ≤ c.maximum_count_ ∧
        (PosixSemaphore.Release c n out).2.2.maximum_count_ = c.maximum_count_) := by
  refine ⟨?_, fun n out => PosixSemaphore_Release_le c n out hc hm⟩
  intro n out h1 h2 hover
  have hcast := toUInt32_of_nonneg n (by omega) h2
  unfold PosixSemaphore.Release PosixCondition_Semaphore.Release
  rw [if_neg (by omega)]
  rw [if_neg]
  simp only [uint32_sub, if_pos hc]
  omega

/-- C3 at Scenario B: semaphore(0, 2), `Release(3)`. -/
theorem PosixSemaphore_Release_over_max_witness :
    PosixSemaphore.Release (Semaphore.Create 0 2) 3 (some 99)
      = (false, some 99, Semaphore.Create 0 2) :=
  (PosixSemaphore_Release_over_max (Semaphore.Create 0 2) (by decide) (by decide)).1
    3 (some 99) (by decide) (by decide) (by decide)

/-- C4 (as stated) fails: on the semaphore state `count_ = 2^31`, `maximum_count_ = 2^32 - 1`
(the state built by `Semaphore::Create(INT_MIN, -1)`), which satisfies
`0 ≤ count_ ≤ maximum_count_`, `Release(1, &prev)` returns true and reports `-2147483648`,
not the old count `2147483648`. -/
theorem PosixSemaphore_Release_previous_counterexample :
    Semaphore.Create (-2147483648) (-1) = { count_ := 2147483648, maximum_count_ := 4294967295 } ∧
    (2147483648 : Nat) ≤ 4294967295 ∧
    PosixSemaphore.Release { count_ := 2147483648, maximum_count_ := 4294967295 } 1 (some 0)
      = (true, some (-2147483648), { count_ := 2147483649, maximum_count_ := 4294967295 }) ∧
    ¬ ((PosixSemaphore.Release { count_ := 2147483648, maximum_count_ := 4294967295 } 1
          (some 0)).2.1 = some ((2147483648 : Nat) : Int)) := by
  refine ⟨?_, ?_, ?_, ?_⟩ <;> decide

/-- C4 (amended): on a semaphore with `count_ ≤ maximum_count_`, a release by an `int` `n`
returns true exactly when `n ≥ 1` and `count_ + n ≤ maximum_count_`; when it returns true the
new count is `count_ + n`, the maximum is kept, and a non-null out parameter receives the old
count converted to `int`, which is the old count itself whenever `count_ < 2^31`. -/
theorem PosixSemaphore_Release_iff (c : PosixCondition_Semaphore) (n : Int) (out : Option Int)
    (hc : c.count_ ≤ c.maximum_count_) (hm : c.maximum_count_ < 2 ^ 32) (hn : n < 2 ^ 31) :
    ((PosixSemaphore.Release c n out).1 = true
        ↔ (1 ≤ n ∧ (c.count_ : Int) + n ≤ c.maximum_count_)) ∧
    ((PosixSemaphore.Release c n out).1 = true →
      ((PosixSemaphore.Release c n out).2.2.count_ : Int) = c.count_ + n ∧
      (PosixSemaphore.Release c n out).2.2.maximum_count_ = c.maximum_count_ ∧
      (∀ v, out = some v →
        (PosixSemaphore.Release c n out).2.1 = some (toInt32 c.count_)) ∧
      (c.count_ < 2 ^ 31 → ∀ v, out = some v →
        (PosixSemaphore.Release c n out).2.1 = some (c.count_ : Int))) := by
  by_cases h1 : n < 1
  · have hr : PosixSemaphore.Release c n out = (false, out, c) := by
      unfold PosixSemaphore.Release; rw [if_pos h1]
    rw [hr]
    refine ⟨⟨fun h => by simp at h, fun h => by omega⟩, fun h => by simp at h⟩
  · have hcast := toUInt32_of_nonneg n (by omega) hn
    by_cases h2 : (c.count_ : Int) + n ≤ c.maximum_count_
    · have hge : uint32_sub c.maximum_count_ c.count_ ≥ toUInt32 n := by
        simp only [uint32_sub, if_pos hc]; omega
      have hr : PosixSemaphore.Release c n out
          = (true, (match out with | some _ => some (toInt32 c.count_) | none => none),
              { c with count_ := uint32_add c.count_ (toUInt32 n) }) := by
        unfold PosixSemaphore.Release PosixCondition_Semaphore.Release
        rw [if_neg h1, if_pos hge]
      rw [hr]
      refine ⟨⟨fun _ => ⟨by omega, h2⟩, fun _ => rfl⟩, fun _ => ⟨?_, rfl, ?_, ?_⟩⟩
      · simp only [uint32_add, UINT32_MOD]; omega
      · intro v hv; subst hv; rfl
      · intro hlt v hv; subst hv
        simp only [toInt32]
        rw [if_pos (by omega)]
        congr 1
        omega
    · have hlt : ¬ (uint32_sub c.maximum_count_ c.count_ ≥ toUInt32 n) := by
        simp only [uint32_sub, if_pos hc]; omega
      have hr : PosixSemaphore.Release c n out = (false, out, c) := by
        unfold PosixSemaphore.Release PosixCondition_Semaphore.Release
        rw [if_neg h1, if_neg hlt]
      rw [hr]
      refine ⟨⟨fun h => by simp at h, fun h => absurd h.2 h2⟩, fun h => by simp at h⟩

/-- C4 (amended) at Scenario B: semaphore(0, 2), `Release(2, &prev)`. -/
theorem PosixSemaphore_Release_iff_witness :
    (PosixSemaphore.Release (Semaphore.Create 0 2) 2 (some 99)).1 = true
      ↔ ((1 : Int) ≤ 2 ∧ (((Semaphore.Create 0 2).count_ : Nat) : Int) + 2
          ≤ (Semaphore.Create 0 2).maximum_count_) :=
  (PosixSemaphore_Release_iff (Semaphore.Create 0 2) 2 (some 99)
    (by decide) (by decide) (by decide)).1

/-- Scenario B of the specification, evaluated. -/
theorem scenarioB :
    PosixSemaphore.Release (Semaphore.Create 0 2) 3 (some 99)
      = (false, some 99, { count_ := 0, maximum_count_ := 2 }) ∧
    PosixSemaphore.Release (Semaphore.Create 0 2) 2 (some 99)
      = (true, some 0, { count_ := 2, maximum_count_ := 2 }) := by
  constructor <;> decide

/-- A wait on a semaphore keeps `count_ ≤ maximum_count_`. -/
theorem SemaphoreOp_apply_le (c : PosixCondition_Semaphore) (op : SemaphoreOp)
    (hc : c.count_ ≤ c.maximum_count_) (hm : c.maximum_count_ < 2 ^ 32) :
    (SemaphoreOp.apply c op).count_ ≤ c.maximum_count_ ∧
      (SemaphoreOp.apply c op).maximum_count_ = c.maximum_count_ := by
  cases op with
  | Release n out => exact PosixSemaphore_Release_le c n out hc hm
  | Wait self timeout =>
    by_cases hs : 0 < c.count_
    · have hw : PosixConditionBase.Wait self (.Semaphore c) timeout
          = some (WaitResult.kSuccess, .Semaphore c.post_execution) := by
        simp [PosixConditionBase.Wait, PosixConditionBase.signaled,
          PosixCondition_Semaphore.signaled, hs, PosixConditionBase.post_execution]
      simp only [SemaphoreOp.apply, hw, PosixConditionBase.asSemaphore,
        PosixCondition_Semaphore.post_execution]
      rw [uint32_pred c.count_ hs]
      exact ⟨by omega, trivial⟩
    · by_cases ht : timeout = milliseconds_max
      · have hw : PosixConditionBase.Wait self (.Semaphore c) timeout = none := by
          simp [PosixConditionBase.Wait, PosixConditionBase.signaled,
            PosixCondition_Semaphore.signaled, hs, ht, cond_wait]
        simp only [SemaphoreOp.apply, hw, PosixConditionBase.asSemaphore]
        exact ⟨hc, trivial⟩
      · have hw : PosixConditionBase.Wait self (.Semaphore c) timeout
            = some (WaitResult.kTimeout, .Semaphore c) := by
          simp [PosixConditionBase.Wait, PosixConditionBase.signaled,
            PosixCondition_Semaphore.signaled, hs, ht, cond_wait_for]
        simp only [SemaphoreOp.apply, hw, PosixConditionBase.asSemaphore]
        exact ⟨hc, trivial⟩

/-- Every history of releases and waits keeps `count_ ≤ maximum_count_`. -/
theorem SemaphoreOp_run_le (ops : List SemaphoreOp) :
    ∀ c : PosixCondition_Semaphore, c.count_ ≤ c.maximum_count_ → c.maximum_count_ < 2 ^ 32 →
      (SemaphoreOp.run c ops).count_ ≤ c.maximum_count_ ∧
        (SemaphoreOp.run c ops).maximum_count_ = c.maximum_count_ := by
  induction ops with
  | nil => intro c hc _; exact ⟨hc, rfl⟩
  | cons op rest ih =>
    intro c hc hm
    obtain ⟨h1, h2⟩ := SemaphoreOp_apply_le c op hc hm
    have := ih (SemaphoreOp.apply c op) (by omega) (by omega)
    simp only [SemaphoreOp.run, List.foldl_cons] at this ⊢
    rw [h2] at this
    exact this

/-- C5 (as stated) fails: `Semaphore::Create(5, 2)` is accepted and yields a semaphore whose
count 5 exceeds its maximum 2 before any operation; a release on it then succeeds and moves
the count further up. -/
theorem Semaphore_Create_invariant_counterexample :
    ¬ ((SemaphoreOp.run (Semaphore.Create 5 2) []).count_
        ≤ (SemaphoreOp.run (Semaphore.Create 5 2) []).maximum_count_) ∧
    PosixSemaphore.Release (Semaphore.Create 5 2) 1 none
      = (true, none, { count_ := 6, maximum_count_ := 2 }) := by
  constructor <;> decide

/-- C5 (amended): for a semaphore created with `0 ≤ initial_count ≤ maximum_count`, the count
stays between 0 and the maximum, and the maximum stays as created, after every sequence of
`Release` calls (with any arguments) and waits. -/
theorem Semaphore_Create_invariant (initial_count maximum_count : Int)
    (ops : List SemaphoreOp) (h0 : 0 ≤ initial_count) (h1 : initial_count ≤ maximum_count)
    (h2 : maximum_count < 2 ^ 31) :
    0 ≤ ((SemaphoreOp.run (Semaphore.Create initial_count maximum_count) ops).count_ : Int) ∧
    ((SemaphoreOp.run (Semaphore.Create initial_count maximum_count) ops).count_ : Int)
      ≤ maximum_count ∧
    ((SemaphoreOp.run (Semaphore.Create initial_count maximum_count) ops).maximum_count_ : Int)
      = maximum_count := by
  have hi := toUInt32_of_nonneg initial_count h0 (by omega)
  have hx := toUInt32_of_nonneg maximum_count (by omega) h2
  have hlt := toUInt32_lt maximum_count
  obtain ⟨ha, hb⟩ := SemaphoreOp_run_le ops (Semaphore.Create initial_count maximum_count)
    (by simp only [Semaphore.Create]; omega) (by simp only [Semaphore.Create]; omega)
  simp only [Semaphore.Create] at ha hb ⊢
  refine ⟨by omega, by omega, by omega⟩

/-- C5 (amended) at semaphore(1, 2) after a release, two waits, a refused release. -/
theorem Semaphore_Create_invariant_witness :
    0 ≤ ((SemaphoreOp.run (Semaphore.Create 1 2)
        [.Release 1 none, .Wait 7 0, .Wait 7 0, .Wait 7 0, .Release 3 none]).count_ : Int) ∧
    ((SemaphoreOp.run (Semaphore.Create 1 2)
        [.Release 1 none, .Wait 7 0, .Wait 7 0, .Wait 7 0, .Release 3 none]).count_ : Int) ≤ 2 ∧
    ((SemaphoreOp.run (Semaphore.Create 1 2)
        [.Release 1 none, .Wait 7 0, .Wait 7 0, .Wait 7 0, .Release 3 none]).maximum_count_ : Int)
      = 2 :=
  Semaphore_Create_invariant 1 2
    [.Release 1 none, .Wait 7 0, .Wait 7 0, .Wait 7 0, .Release 3 none]
    (by decide) (by decide) (by decide)

/-- Whatever `WaitMultiple`'s loop does, a semaphore stays a semaphore with the same maximum
and a count that did not grow. -/
theorem WaitMultiple_loop_semaphore (self : ThreadId) (wait_all : Bool) (p : Ptr) :
    ∀ (l : List Ptr) (i first : Nat) (heap : Heap) (c : PosixCondition_Semaphore),
      heap p = .Semaphore c →
      ∃ c', (WaitMultiple_loop self wait_all l i first heap).2 p = .Semaphore c' ∧
        c'.maximum_count_ = c.maximum_count_ ∧ c'.count_ ≤ c.count_ := by
  intro l
  induction l with
  | nil => intro i first heap c hc; exact ⟨c, by simpa [WaitMultiple_loop] using hc, rfl, le_refl _⟩
  | cons a rest ih =>
    intro i first heap c hc
    by_cases ha : (heap a).signaled self = true
    · have h1 : ∃ c1, (heap.set a ((heap a).post_execution self)) p = .Semaphore c1 ∧
          c1.maximum_count_ = c.maximum_count_ ∧ c1.count_ ≤ c.count_ := by
        by_cases hpa : p = a
        · subst hpa
          rw [hc] at ha
          simp only [PosixConditionBase.signaled, PosixCondition_Semaphore.signaled,
            decide_eq_true_eq] at ha
          refine ⟨c.post_execution, by simp [Heap.set, hc, PosixConditionBase.post_execution],
            rfl, ?_⟩
          simp only [PosixCondition_Semaphore.post_execution, uint32_pred c.count_ ha]
          omega
        · exact ⟨c, by simp [Heap.set, hpa, hc], rfl, le_refl _⟩
      obtain ⟨c1, hc1, hm1, hle1⟩ := h1
      cases wait_all with
      | false =>
        refine ⟨c1, ?_, hm1, hle1⟩
        simp [WaitMultiple_loop, ha, hc1]
      | true =>
        obtain ⟨c2, hc2, hm2, hle2⟩ := ih (i + 1) (if first > i then i else first) _ c1 hc1
        refine ⟨c2, ?_, by omega, by omega⟩
        simp only [WaitMultiple_loop, ha, if_true, Bool.not_true, Bool.false_eq_true, if_false]
        exact hc2
    · obtain ⟨c2, hc2, hm2, hle2⟩ := ih (i + 1) first heap c hc
      refine ⟨c2, ?_, hm2, hle2⟩
      simp only [WaitMultiple_loop, ha, Bool.false_eq_true, if_false]
      exact hc2

/-- C6: a wait on a semaphore returns `kSuccess` (for every timeout, so without blocking)
exactly when `count_ > 0`, and then the count is `count_ - 1`; with `count_ = 0` a finite
timeout gives `kTimeout` with the object unchanged and the infinite timeout never returns;
a semaphore selected by a wait-any `WaitMultiple` loses exactly one; and no `WaitMultiple`
call makes a semaphore count grow, so no decrement wraps below zero. -/
theorem Semaphore_Wait_decrements (self : ThreadId) (c : PosixCondition_Semaphore)
    (timeout : Int) :
    ((∃ c', PosixConditionBase.Wait self (.Semaphore c) timeout
        = some (WaitResult.kSuccess, c')) ↔ 0 < c.count_) ∧
    (0 < c.count_ → PosixConditionBase.Wait self (.Semaphore c) timeout
        = some (WaitResult.kSuccess, .Semaphore { c with count_ := c.count_ - 1 })) ∧
    (c.count_ = 0 → timeout ≠ milliseconds_max →
      PosixConditionBase.Wait self (.Semaphore c) timeout
        = some (WaitResult.kTimeout, .Semaphore c)) ∧
    (c.count_ = 0 → timeout = milliseconds_max →
      PosixConditionBase.Wait self (.Semaphore c) timeout = none) ∧
    (∀ (heap : Heap) (handles : List Ptr) (k : Nat) (p : Ptr),
      heap p = .Semaphore c → handles.length < 2 ^ 32 → handles[k]? = some p →
      0 < c.count_ →
      (∀ j q, j < k → handles[j]? = some q → (heap q).signaled self = false) →
      ∃ heap', PosixConditionBase.WaitMultiple self heap handles false timeout
          = some ((WaitResult.kSuccess, k), heap') ∧
        heap' p = .Semaphore { c with count_ := c.count_ - 1 }) ∧
    (∀ (heap : Heap) (handles : List Ptr) (wait_all : Bool) (p : Ptr) r heap',
      heap p = .Semaphore c →
      PosixConditionBase.WaitMultiple self heap handles wait_all timeout = some (r, heap') →
      ∃ c', heap' p = .Semaphore c' ∧ c'.maximum_count_ = c.maximum_count_ ∧
        c'.count_ ≤ c.count_) := by
  have hpos : 0 < c.count_ → PosixConditionBase.Wait self (.Semaphore c) timeout
        = some (WaitResult.kSuccess, .Semaphore { c with count_ := c.count_ - 1 }) := by
    intro hs
    simp [PosixConditionBase.Wait, PosixConditionBase.signaled,
      PosixCondition_Semaphore.signaled, hs, PosixConditionBase.post_execution,
      PosixCondition_Semaphore.post_execution, uint32_pred c.count_ hs]
  have hfin : c.count_ = 0 → timeout ≠ milliseconds_max →
      PosixConditionBase.Wait self (.Semaphore c) timeout
        = some (WaitResult.kTimeout, .Semaphore c) := by
    intro hs ht
    simp [PosixConditionBase.Wait, PosixConditionBase.signaled,
      PosixCondition_Semaphore.signaled, hs, ht, cond_wait_for]
  have hinf : c.count_ = 0 → timeout = milliseconds_max →
      PosixConditionBase.Wait self (.Semaphore c) timeout = none := by
    intro hs ht
    simp [PosixConditionBase.Wait, PosixConditionBase.signaled,
      PosixCondition_Semaphore.signaled, hs, ht, cond_wait]
  refine ⟨⟨?_, fun hs => ⟨_, hpos hs⟩⟩, hpos, hfin, hinf, ?_, ?_⟩
  · rintro ⟨c', hc'⟩
    by_contra hs
    have h0 : c.count_ = 0 := by omega
    by_cases ht : timeout = milliseconds_max
    · rw [hinf h0 ht] at hc'; simp at hc'
    · rw [hfin h0 ht] at hc'; simp at hc'
  · intro heap handles k p hp hlen hk hs hmin
    have hsp : (heap p).signaled self = true := by
      simp [hp, PosixConditionBase.signaled, PosixCondition_Semaphore.signaled, hs]
    have hmem : p ∈ handles := List.getElem?_mem hk
    obtain ⟨k', p', hk', hs', hmin', heq⟩ :=
      WaitMultiple_loop_any self heap handles 0 (by simp only [SIZE_MAX]; omega) ⟨p, hmem, hsp⟩
    have hkk : k' = k := by
      rcases Nat.lt_trichotomy k' k with h | h | h
      · have := hmin k' p' h hk'; rw [hs'] at this; simp at this
      · exact h
      · have := hmin' k p h hk; rw [hsp] at this; simp at this
    subst hkk
    have hpp : p' = p := by rw [hk] at hk'; exact (Option.some.inj hk').symm
    subst hpp
    have hany : handles.any (fun h => (heap h).signaled self) = true := by
      simp only [List.any_eq_true]; exact ⟨p', hmem, hsp⟩
    refine ⟨heap.set p' ((heap p').post_execution self), ?_, ?_⟩
    · simp only [PosixConditionBase.WaitMultiple, Bool.false_eq_true, if_false, hany, if_true]
      rw [heq]; simp
    · simp [Heap.set, hp, PosixConditionBase.post_execution,
        PosixCondition_Semaphore.post_execution, uint32_pred c.count_ hs]
  · intro heap handles wait_all p r heap' hp hres
    unfold PosixConditionBase.WaitMultiple at hres
    simp only at hres
    split at hres
    · exact absurd hres (by simp)
    · simp only [Option.some.injEq, Prod.mk.injEq] at hres
      obtain ⟨_, hh⟩ := hres
      rw [← hh]
      exact WaitMultiple_loop_semaphore self wait_all p handles 0 SIZE_MAX heap c hp
    · simp only [Option.some.injEq, Prod.mk.injEq] at hres
      obtain ⟨_, hh⟩ := hres
      rw [← hh]
      exact ⟨c, hp, rfl, le_refl _⟩

/-- C6 at semaphore(1, 2): the first wait succeeds. -/
theorem Semaphore_Wait_decrements_witness :
    (0 : Nat) < (Semaphore.Create 1 2).count_ ∧
    PosixConditionBase.Wait 7 (.Semaphore (Semaphore.Create 1 2)) 0
      = some (WaitResult.kSuccess, .Semaphore
          { Semaphore.Create 1 2 with count_ := (Semaphore.Create 1 2).count_ - 1 }) :=
  ⟨by decide, (Semaphore_Wait_decrements 7 (Semaphore.Create 1 2) 0).2.1 (by decide)⟩

/-! ## Theorems: Event -/

/-- C7: on an auto-reset event in any state, after `Set()` a wait (with any timeout) returns
`kSuccess` and leaves the event cleared; a second wait with zero timeout then returns
`kTimeout` and changes nothing (with the infinite timeout it never returns); after a second
`Set()` again exactly one wait succeeds and the next zero-timeout wait times out. -/
theorem AutoResetEvent_one_wait_per_Set (self : ThreadId) (e : PosixCondition_Event)
    (timeout : Int) (hauto : e.manual_reset_ = false) :
    e.Signal.1 = true ∧
    PosixConditionBase.Wait self (.Event e.Signal.2) timeout
      = some (WaitResult.kSuccess, .Event { e with signal_ := false }) ∧
    PosixConditionBase.Wait self (.Event { e with signal_ := false }) 0
      = some (WaitResult.kTimeout, .Event { e with signal_ := false }) ∧
    PosixConditionBase.Wait self (.Event { e with signal_ := false }) milliseconds_max = none ∧
    PosixConditionBase.Wait self
        (.Event (PosixCondition_Event.Signal { e with signal_ := false }).2) timeout
      = some (WaitResult.kSuccess, .Event { e with signal_ := false }) := by
  have hzero : ¬ ((0 : Int) = milliseconds_max) := by simp [milliseconds_max]
  refine ⟨rfl, ?_, ?_, ?_, ?_⟩
  · simp [PosixConditionBase.Wait, PosixConditionBase.signaled, PosixCondition_Event.signaled,
      PosixCondition_Event.Signal, PosixConditionBase.post_execution,
      PosixCondition_Event.post_execution, hauto]
  · simp [PosixConditionBase.Wait, PosixConditionBase.signaled, PosixCondition_Event.signaled,
      hzero, cond_wait_for]
  · simp [PosixConditionBase.Wait, PosixConditionBase.signaled, PosixCondition_Event.signaled,
      cond_wait]
  · simp [PosixConditionBase.Wait, PosixConditionBase.signaled, PosixCondition_Event.signaled,
      PosixCondition_Event.Signal, PosixConditionBase.post_execution,
      PosixCondition_Event.post_execution, hauto]

/-- C7 at the event of Scenario A. -/
theorem AutoResetEvent_one_wait_per_Set_witness :
    (Event.CreateAutoResetEvent false).manual_reset_ = false ∧
    PosixConditionBase.Wait 7 (.Event (Event.CreateAutoResetEvent false).Signal.2) 0
      = some (WaitResult.kSuccess,
          .Event { Event.CreateAutoResetEvent false with signal_ := false }) :=
  ⟨rfl, (AutoResetEvent_one_wait_per_Set 7 (Event.CreateAutoResetEvent false) 0 rfl).2.1⟩

/-- A wait on a signaled manual-reset event succeeds and leaves the event as it is. -/
theorem Wait_manual_event_signaled (self : ThreadId) (e : PosixCondition_Event) (timeout : Int)
    (hman : e.manual_reset_ = true) (hs : e.signal_ = true) :
    PosixConditionBase.Wait self (.Event e) timeout = some (WaitResult.kSuccess, .Event e) := by
  simp [PosixConditionBase.Wait, PosixConditionBase.signaled, PosixCondition_Event.signaled,
    PosixConditionBase.post_execution, PosixCondition_Event.post_execution, hman, hs]

/-- Any number of waits on a signaled manual-reset event all succeed. -/
theorem Wait_each_manual_event (timeout : Int) (e : PosixCondition_Event)
    (hman : e.manual_reset_ = true) (hs : e.signal_ = true) :
    ∀ selfs : List ThreadId, Wait_each timeout (.Event e) selfs
      = some (List.replicate selfs.length WaitResult.kSuccess, .Event e) := by
  intro selfs
  induction selfs with
  | nil => rfl
  | cons self rest ih =>
    simp only [Wait_each, Wait_manual_event_signaled self e timeout hman hs, ih,
      List.length_cons, List.replicate_succ]

/-- An object that `post_execution` does not change is not changed by the loop of
`WaitMultiple`. -/
theorem WaitMultiple_loop_fixed (self : ThreadId) (wait_all : Bool) (p : Ptr) :
    ∀ (l : List Ptr) (i first : Nat) (heap : Heap),
      (heap p).post_execution self = heap p →
      (WaitMultiple_loop self wait_all l i first heap).2 p = heap p := by
  intro l
  induction l with
  | nil => intro i first heap _; rfl
  | cons a rest ih =>
    intro i first heap hfix
    have h1 : (heap.set a ((heap a).post_execution self)) p = heap p := by
      by_cases hpa : p = a
      · subst hpa; simp [Heap.set, hfix]
      · simp [Heap.set, hpa]
    by_cases ha : (heap a).signaled self = true
    · cases wait_all with
      | false => simp [WaitMultiple_loop, ha, h1]
      | true =>
        simp only [WaitMultiple_loop, ha, if_true, Bool.not_true, Bool.false_eq_true, if_false]
        rw [ih _ _ _ (by rw [h1]; exact hfix), h1]
    · simp only [WaitMultiple_loop, ha, Bool.false_eq_true, if_false]
      exact ih _ _ _ hfix

/-- C8: on a manual-reset event in any state, after `Set()` any number of waits, by any
threads and with any timeout, all return `kSuccess` and leave the event signaled; `Reset()`
clears the event whatever its state, after which a zero-timeout wait returns `kTimeout`;
and no `Wait` and no `WaitMultiple` that returns changes a manual-reset event. -/
theorem ManualResetEvent_waits (e : PosixCondition_Event) (hman : e.manual_reset_ = true) :
    e.Signal = (true, { e with signal_ := true }) ∧
    (∀ (selfs : List ThreadId) (timeout : Int),
      Wait_each timeout (.Event e.Signal.2) selfs
        = some (List.replicate selfs.length WaitResult.kSuccess,
            .Event { e with signal_ := true })) ∧
    e.Signal.2.Reset = { e with signal_ := false } ∧
    e.Reset = { e with signal_ := false } ∧
    (∀ self : ThreadId, PosixConditionBase.Wait self (.Event e.Reset) 0
      = some (WaitResult.kTimeout, .Event { e with signal_ := false })) ∧
    (∀ (self : ThreadId) (timeout : Int) r c',
      PosixConditionBase.Wait self (.Event e) timeout = some (r, c') → c' = .Event e) ∧
    (∀ (self : ThreadId) (heap : Heap) (handles : List Ptr) (wait_all : Bool) (timeout : Int)
        (p : Ptr) r heap', heap p = .Event e →
      PosixConditionBase.WaitMultiple self heap handles wait_all timeout = some (r, heap') →
      heap' p = .Event e) := by
  have hzero : ¬ ((0 : Int) = milliseconds_max) := by simp [milliseconds_max]
  have hpost : ∀ self : ThreadId,
      (PosixConditionBase.Event e).post_execution self = .Event e := by
    intro self
    simp [PosixConditionBase.post_execution, PosixCondition_Event.post_execution, hman]
  refine ⟨rfl, ?_, rfl, rfl, ?_, ?_, ?_⟩
  · intro selfs timeout
    exact Wait_each_manual_event timeout { e with signal_ := true } hman rfl selfs
  · intro self
    simp [PosixConditionBase.Wait, PosixConditionBase.signaled, PosixCondition_Event.signaled,
      PosixCondition_Event.Reset, hzero, cond_wait_for]
  · intro self timeout r c' h
    unfold PosixConditionBase.Wait at h
    simp only at h
    split at h
    · exact absurd h (by simp)
    · simp only [Option.some.injEq, Prod.mk.injEq] at h
      rw [← h.2, hpost self]
    · simp only [Option.some.injEq, Prod.mk.injEq] at h
      exact h.2.symm
  · intro self heap handles wait_all timeout p r heap' hp hres
    unfold PosixConditionBase.WaitMultiple at hres
    simp only at hres
    split at hres
    · exact absurd hres (by simp)
    · simp only [Option.some.injEq, Prod.mk.injEq] at hres
      rw [← hres.2, WaitMultiple_loop_fixed self wait_all p handles 0 SIZE_MAX heap
        (by rw [hp]; exact hpost self), hp]
    · simp only [Option.some.injEq, Prod.mk.injEq] at hres
      rw [← hres.2, hp]

/-- C8 at a fresh manual-reset event: three waits after one `Set()`. -/
theorem ManualResetEvent_waits_witness :
    (Event.CreateManualResetEvent false).manual_reset_ = true ∧
    Wait_each 0 (.Event (Event.CreateManualResetEvent false).Signal.2) [1, 2, 1]
      = some ([WaitResult.kSuccess, WaitResult.kSuccess, WaitResult.kSuccess],
          .Event { Event.CreateManualResetEvent false with signal_ := true }) :=
  ⟨rfl, (ManualResetEvent_waits (Event.CreateManualResetEvent false) rfl).2.1 [1, 2, 1] 0⟩

/-! ## Theorems: Mutant -/

/-- C9: `Release()` by a thread `t` that is not the recorded owner returns false and leaves
the mutant unchanged, in every state; the recorded owner is the thread of the latest
successful wait (or the creator of an initially owned mutant); and `Release()` by the
recorded owner while `count_ > 0` returns true and takes one off the count. -/
theorem Mutant_Release_owner_only (c : PosixCondition_Mutant) (t : ThreadId) :
    (c.owner_ ≠ some t → PosixCondition_Mutant.Release t c = (false, c)) ∧
    (∀ a : ThreadId, t ≠ a →
      (c.post_execution a).owner_ = some a ∧
      PosixCondition_Mutant.Release t (c.post_execution a) = (false, c.post_execution a)) ∧
    (∀ a : ThreadId, t ≠ a →
      PosixCondition_Mutant.Release t (Mutant.Create a true) = (false, Mutant.Create a true)) ∧
    (c.owner_ = some t → 0 < c.count_ →
      PosixCondition_Mutant.Release t c = (true, { c with count_ := c.count_ - 1 })) := by
  refine ⟨?_, ?_, ?_, ?_⟩
  · intro h
    simp [PosixCondition_Mutant.Release, h]
  · intro a hta
    refine ⟨rfl, ?_⟩
    have : ¬ (a = t) := fun h => hta h.symm
    simp [PosixCondition_Mutant.Release, PosixCondition_Mutant.post_execution, this]
  · intro a hta
    have : ¬ (a = t) := fun h => hta h.symm
    simp [PosixCondition_Mutant.Release, Mutant.Create, this]
  · intro ho hc
    simp [PosixCondition_Mutant.Release, ho, hc, uint32_pred c.count_ hc]

/-- C9 at a mutant held by thread 1: thread 2 cannot release it. -/
theorem Mutant_Release_owner_only_witness :
    (Mutant.Create 1 true).owner_ ≠ some 2 ∧
    PosixCondition_Mutant.Release 2 (Mutant.Create 1 true) = (false, Mutant.Create 1 true) :=
  ⟨by decide, (Mutant_Release_owner_only (Mutant.Create 1 true) 2).1 (by decide)⟩

/-- C10: a zero-timeout wait on a mutant by thread `t` returns `kSuccess` exactly when
`count_ = 0` or `t` is the recorded owner; the owner's wait succeeds for every timeout, so
without blocking; and while thread `a` holds the mutant (`count_ > 0`, owner `a`), a
zero-timeout wait by another thread returns `kTimeout` and leaves count and owner unchanged. -/
theorem Mutant_Wait_iff (c : PosixCondition_Mutant) (t : ThreadId) :
    ((∃ c', PosixConditionBase.Wait t (.Mutant c) 0 = some (WaitResult.kSuccess, c'))
      ↔ (c.count_ = 0 ∨ c.owner_ = some t)) ∧
    (c.owner_ = some t → ∀ timeout : Int, PosixConditionBase.Wait t (.Mutant c) timeout
      = some (WaitResult.kSuccess,
          .Mutant { count_ := uint32_add c.count_ 1, owner_ := some t })) ∧
    (c.count_ = 0 → ∀ timeout : Int, PosixConditionBase.Wait t (.Mutant c) timeout
      = some (WaitResult.kSuccess, .Mutant { count_ := 1, owner_ := some t })) ∧
    (∀ a : ThreadId, 0 < c.count_ → c.owner_ = some a → t ≠ a →
      PosixConditionBase.Wait t (.Mutant c) 0 = some (WaitResult.kTimeout, .Mutant c)) := by
  have hzero : ¬ ((0 : Int) = milliseconds_max) := by simp [milliseconds_max]
  have hown : c.owner_ = some t → ∀ timeout : Int, PosixConditionBase.Wait t (.Mutant c) timeout
      = some (WaitResult.kSuccess,
          .Mutant { count_ := uint32_add c.count_ 1, owner_ := some t }) := by
    intro ho timeout
    simp [PosixConditionBase.Wait, PosixConditionBase.signaled, PosixCondition_Mutant.signaled,
      ho, PosixConditionBase.post_execution, PosixCondition_Mutant.post_execution]
  have hfree : c.count_ = 0 → ∀ timeout : Int, PosixConditionBase.Wait t (.Mutant c) timeout
      = some (WaitResult.kSuccess, .Mutant { count_ := 1, owner_ := some t }) := by
    intro h0 timeout
    simp [PosixConditionBase.Wait, PosixConditionBase.signaled, PosixCondition_Mutant.signaled,
      h0, PosixConditionBase.post_execution, PosixCondition_Mutant.post_execution, uint32_add,
      UINT32_MOD]
  have hbusy : 0 < c.count_ → c.owner_ ≠ some t →
      PosixConditionBase.Wait t (.Mutant c) 0 = some (WaitResult.kTimeout, .Mutant c) := by
    intro hc ho
    have hc' : ¬ (c.count_ = 0) := by omega
    simp [PosixConditionBase.Wait, PosixConditionBase.signaled, PosixCondition_Mutant.signaled,
      hc', ho, hzero, cond_wait_for]
  refine ⟨⟨?_, ?_⟩, hown, hfree, ?_⟩
  · rintro ⟨c', h⟩
    by_contra hcon
    push_neg at hcon
    rw [hbusy (by omega) hcon.2] at h
    simp at h
  · rintro (h0 | ho)
    · exact ⟨_, hfree h0 0⟩
    · exact ⟨_, hown ho 0⟩
  · intro a hc ho hta
    apply hbusy hc
    rw [ho]
    intro h
    exact hta (Option.some.inj h).symm

/-- C10 at a mutant held by thread 1: a zero-timeout wait by thread 2 times out. -/
theorem Mutant_Wait_iff_witness :
    (0 : Nat) < (Mutant.Create 1 true).count_ ∧ (Mutant.Create 1 true).owner_ = some 1 ∧
    PosixConditionBase.Wait 2 (.Mutant (Mutant.Create 1 true)) 0
      = some (WaitResult.kTimeout, .Mutant (Mutant.Create 1 true)) :=
  ⟨by decide, rfl,
    (Mutant_Wait_iff (Mutant.Create 1 true) 2).2.2.2 1 (by decide) rfl (by decide)⟩

/-- One operation that is not a re-entrant wait keeps the count of a mutant in `{0, 1}`. -/
theorem MutantOp_apply_binary (c : PosixCondition_Mutant) (op : MutantOp)
    (hc : c.count_ ≤ 1) (hop : op.not_reentrant c = true) :
    (MutantOp.apply c op).count_ ≤ 1 := by
  cases op with
  | Wait self timeout =>
    simp only [MutantOp.not_reentrant, Bool.not_eq_true', Bool.and_eq_false_imp,
      decide_eq_true_eq, decide_eq_false_iff_not] at hop
    by_cases h0 : c.count_ = 0
    · have hw : PosixConditionBase.Wait self (.Mutant c) timeout
          = some (WaitResult.kSuccess, .Mutant { count_ := 1, owner_ := some self }) := by
        simp [PosixConditionBase.Wait, PosixConditionBase.signaled,
          PosixCondition_Mutant.signaled, h0, PosixConditionBase.post_execution,
          PosixCondition_Mutant.post_execution, uint32_add, UINT32_MOD]
      simp only [MutantOp.apply, hw, PosixConditionBase.asMutant]
      exact le_refl _
    · have ho : ¬ (c.owner_ = some self) := hop (by omega)
      by_cases ht : timeout = milliseconds_max
      · have hw : PosixConditionBase.Wait self (.Mutant c) timeout = none := by
          simp [PosixConditionBase.Wait, PosixConditionBase.signaled,
            PosixCondition_Mutant.signaled, h0, ho, ht, cond_wait]
        simp only [MutantOp.apply, hw]
        exact hc
      · have hw : PosixConditionBase.Wait self (.Mutant c) timeout
            = some (WaitResult.kTimeout, .Mutant c) := by
          simp [PosixConditionBase.Wait, PosixConditionBase.signaled,
            PosixCondition_Mutant.signaled, h0, ho, ht, cond_wait_for]
        simp only [MutantOp.apply, hw, PosixConditionBase.asMutant]
        exact hc
  | Release self =>
    simp only [MutantOp.apply, PosixCondition_Mutant.Release]
    split
    · rename_i h
      simp only [uint32_pred c.count_ h.2]
      omega
    · exact hc

/-- A history without re-entrant waits keeps the count of a mutant in `{0, 1}`. -/
theorem MutantOp_run_binary (ops : List MutantOp) :
    ∀ c : PosixCondition_Mutant, c.count_ ≤ 1 → MutantOp.no_reentrant_wait c ops = true →
      (MutantOp.run c ops).count_ ≤ 1 := by
  induction ops with
  | nil => intro c hc _; exact hc
  | cons op rest ih =>
    intro c hc hops
    simp only [MutantOp.no_reentrant_wait, Bool.and_eq_true] at hops
    have := ih (MutantOp.apply c op) (MutantOp_apply_binary c op hc hops.1) hops.2
    simpa only [MutantOp.run, List.foldl_cons] using this

/-- C11 (as stated) fails: the creator of an initially owned mutant waits on it once more;
the wait succeeds and leaves `count_ = 2`; one `Release()` by the owner then succeeds and
leaves `count_ = 1`, so that a zero-timeout wait by another thread still times out. -/
theorem Mutant_binary_count_counterexample :
    MutantOp.run (Mutant.Create 1 true) [.Wait 1 0] = { count_ := 2, owner_ := some 1 } ∧
    PosixCondition_Mutant.Release 1 (MutantOp.run (Mutant.Create 1 true) [.Wait 1 0])
      = (true, { count_ := 1, owner_ := some 1 }) ∧
    PosixConditionBase.Wait 2 (.Mutant { count_ := 1, owner_ := some 1 }) 0
      = some (WaitResult.kTimeout, .Mutant { count_ := 1, owner_ := some 1 }) := by
  refine ⟨?_, ?_, ?_⟩ <;> decide

/-- C11 (amended): in every state reached from `Mutant::Create` by waits and `Release()`
calls among which no thread waits on the mutant while holding it, the count is 0 or 1; a
successful wait (not by the holder) leaves `count_ = 1` with the waiting thread as owner; and
a successful `Release()` leaves `count_ = 0`, after which a wait by any thread succeeds. -/
theorem Mutant_binary_count (creator : ThreadId) (initial_owner : Bool) (ops : List MutantOp)
    (c : PosixCondition_Mutant)
    (hops : MutantOp.no_reentrant_wait (Mutant.Create creator initial_owner) ops = true)
    (hc : c = MutantOp.run (Mutant.Create creator initial_owner) ops) :
    (c.count_ = 0 ∨ c.count_ = 1) ∧
    (∀ (t : ThreadId) (timeout : Int) c', MutantOp.not_reentrant c (.Wait t timeout) = true →
      PosixConditionBase.Wait t (.Mutant c) timeout = some (WaitResult.kSuccess, c') →
      c' = .Mutant { count_ := 1, owner_ := some t }) ∧
    (∀ (t : ThreadId) c', PosixCondition_Mutant.Release t c = (true, c') →
      c'.count_ = 0 ∧
      ∀ (u : ThreadId) (timeout : Int), PosixConditionBase.Wait u (.Mutant c') timeout
        = some (WaitResult.kSuccess, .Mutant { count_ := 1, owner_ := some u })) := by
  have hinit : (Mutant.Create creator initial_owner).count_ ≤ 1 := by
    cases initial_owner <;> simp [Mutant.Create]
  have hle : c.count_ ≤ 1 := by
    rw [hc]; exact MutantOp_run_binary ops _ hinit hops
  have hfree : ∀ (d : PosixCondition_Mutant) (u : ThreadId) (timeout : Int), d.count_ = 0 →
      PosixConditionBase.Wait u (.Mutant d) timeout
        = some (WaitResult.kSuccess, .Mutant { count_ := 1, owner_ := some u }) := by
    intro d u timeout h0
    simp [PosixConditionBase.Wait, PosixConditionBase.signaled, PosixCondition_Mutant.signaled,
      h0, PosixConditionBase.post_execution, PosixCondition_Mutant.post_execution, uint32_add,
      UINT32_MOD]
  refine ⟨by omega, ?_, ?_⟩
  · intro t timeout c' hnr hw
    simp only [MutantOp.not_reentrant, Bool.not_eq_true', Bool.and_eq_false_imp,
      decide_eq_true_eq, decide_eq_false_iff_not] at hnr
    by_cases h0 : c.count_ = 0
    · rw [hfree c t timeout h0] at hw
      simp only [Option.some.injEq, Prod.mk.injEq, true_and] at hw
      exact hw.symm
    · have ho : ¬ (c.owner_ = some t) := hnr (by omega)
      by_cases ht : timeout = milliseconds_max
      · have : PosixConditionBase.Wait t (.Mutant c) timeout = none := by
          simp [PosixConditionBase.Wait, PosixConditionBase.signaled,
            PosixCondition_Mutant.signaled, h0, ho, ht, cond_wait]
        rw [this] at hw; simp at hw
      · have : PosixConditionBase.Wait t (.Mutant c) timeout
            = some (WaitResult.kTimeout, .Mutant c) := by
          simp [PosixConditionBase.Wait, PosixConditionBase.signaled,
            PosixCondition_Mutant.signaled, h0, ho, ht, cond_wait_for]
        rw [this] at hw; simp at hw
  · intro t c' hr
    unfold PosixCondition_Mutant.Release at hr
    split at hr
    · rename_i h
      simp only [Prod.mk.injEq, true_and] at hr
      have h0 : c'.count_ = 0 := by
        rw [← hr]
        simp only [uint32_pred c.count_ h.2]
        omega
      exact ⟨h0, fun u timeout => hfree c' u timeout h0⟩
    · simp at hr

/-- C11 (amended) at a mutant created unowned: thread 1 takes it, releases it, thread 2
takes it. -/
theorem Mutant_binary_count_witness :
    ((MutantOp.run (Mutant.Create 1 false) [.Wait 1 0, .Release 1, .Wait 2 0]).count_ = 0 ∨
      (MutantOp.run (Mutant.Create 1 false) [.Wait 1 0, .Release 1, .Wait 2 0]).count_ = 1) :=
  (Mutant_binary_count 1 false [.Wait 1 0, .Release 1, .Wait 2 0] _ (by decide) rfl).1

/-! ## Theorems: timeouts -/

/-- C12: with a finite timeout, a `Wait` on an unsignaled object returns `kTimeout` and a
`WaitMultiple` whose aggregate is false (wait-all with an unsignaled handle, wait-any with no
signaled handle) returns `(kTimeout, 0)`; whenever either call returns `kTimeout`, the object,
respectively the whole heap, is as before the call and the index is 0; and `kTimeout` is
neither `kSuccess` nor `kFailed`. -/
theorem Timeout_changes_nothing (self : ThreadId) :
    (∀ (c : PosixConditionBase) (timeout : Int), timeout ≠ milliseconds_max →
      c.signaled self = false →
      PosixConditionBase.Wait self c timeout = some (WaitResult.kTimeout, c)) ∧
    (∀ (heap : Heap) (handles : List Ptr) (timeout : Int), timeout ≠ milliseconds_max →
      (∃ p ∈ handles, (heap p).signaled self = false) →
      PosixConditionBase.WaitMultiple self heap handles true timeout
        = some ((WaitResult.kTimeout, 0), heap)) ∧
    (∀ (heap : Heap) (handles : List Ptr) (timeout : Int), timeout ≠ milliseconds_max →
      (∀ p ∈ handles, (heap p).signaled self = false) →
      PosixConditionBase.WaitMultiple self heap handles false timeout
        = some ((WaitResult.kTimeout, 0), heap)) ∧
    (∀ (c : PosixConditionBase) (timeout : Int) c',
      PosixConditionBase.Wait self c timeout = some (WaitResult.kTimeout, c') → c' = c) ∧
    (∀ (heap : Heap) (handles : List Ptr) (wait_all : Bool) (timeout : Int) i heap',
      PosixConditionBase.WaitMultiple self heap handles wait_all timeout
        = some ((WaitResult.kTimeout, i), heap') → i = 0 ∧ heap' = heap) ∧
    WaitResult.kTimeout ≠ WaitResult.kSuccess ∧ WaitResult.kTimeout ≠ WaitResult.kFailed := by
  refine ⟨?_, ?_, ?_, ?_, ?_, by decide, by decide⟩
  · intro c timeout ht hs
    simp [PosixConditionBase.Wait, hs, ht, cond_wait_for]
  · intro heap handles timeout ht hex
    have hagg : handles.all (fun h => (heap h).signaled self) = false := by
      rw [Bool.eq_false_iff]
      intro h
      rw [List.all_eq_true] at h
      obtain ⟨p, hp, hs⟩ := hex
      rw [h p hp] at hs
      exact absurd hs (by simp)
    simp [PosixConditionBase.WaitMultiple, hagg, ht, cond_wait_for]
  · intro heap handles timeout ht hall
    have hagg : handles.any (fun h => (heap h).signaled self) = false := by
      rw [Bool.eq_false_iff]
      intro h
      rw [List.any_eq_true] at h
      obtain ⟨p, hp, hs⟩ := h
      rw [hall p hp] at hs
      exact absurd hs (by simp)
    simp [PosixConditionBase.WaitMultiple, hagg, ht, cond_wait_for]
  · intro c timeout c' h
    unfold PosixConditionBase.Wait at h
    simp only at h
    split at h
    · exact absurd h (by simp)
    · simp at h
    · simp only [Option.some.injEq, Prod.mk.injEq, true_and] at h
      exact h.symm
  · intro heap handles wait_all timeout i heap' h
    unfold PosixConditionBase.WaitMultiple at h
    simp only at h
    split at h
    · exact absurd h (by simp)
    · simp at h
    · simp only [Option.some.injEq, Prod.mk.injEq, true_and] at h
      exact ⟨h.1.symm, h.2.symm⟩

/-- C12 at Scenario D with wait-all: event A is unsignaled, so the zero-timeout wait on
both events times out. -/
theorem Timeout_changes_nothing_witness :
    PosixConditionBase.WaitMultiple 7 scenarioD [0, 1] true 0
      = some ((WaitResult.kTimeout, 0), scenarioD) :=
  (Timeout_changes_nothing 7).2.1 scenarioD [0, 1] 0 (by decide) ⟨0, by decide, by decide⟩

/-! ## Theorems: public wait functions -/

/-- The first loop of `WaitMultiple` fails when some handle lacks the waitable capability,
wherever it stands in the array. -/
theorem WaitMultiple_conditions_none (wait_handles : List WaitHandle) :
    ∀ conditions : List Ptr, none ∈ wait_handles →
      WaitMultiple_conditions wait_handles conditions = none := by
  induction wait_handles with
  | nil => intro _ h; simp at h
  | cons a rest ih =>
    intro conditions h
    cases a with
    | none => rfl
    | some p =>
      have hrest : none ∈ rest := by
        rcases List.mem_cons.mp h with h | h
        · simp at h
        · exact h
      simp only [WaitMultiple_conditions]
      exact ih _ hrest

/-- The first loop of `WaitMultiple` collects the conditions of valid handles in order. -/
theorem WaitMultiple_conditions_some (ptrs : List Ptr) :
    ∀ conditions : List Ptr,
      WaitMultiple_conditions (ptrs.map some) conditions = some (conditions ++ ptrs) := by
  induction ptrs with
  | nil => intro conditions; simp [WaitMultiple_conditions]
  | cons p rest ih =>
    intro conditions
    simp only [List.map_cons, WaitMultiple_conditions, ih, List.append_assoc,
      List.singleton_append]

/-- C13: when some element of the handle array lacks the waitable capability, the public
`WaitMultiple` returns `(kFailed, 0)` and leaves the heap and the caller's alertable flag
as they were, whatever the other handles, their states and the arguments; the public `Wait`
on such a handle returns `kFailed`, likewise without any change. -/
theorem WaitMultiple_validates_handles (self : ThreadId) (heap : Heap) (alertable_state_ : Bool)
    (wait_handles : List WaitHandle) (wait_all is_alertable : Bool) (timeout : Int)
    (hbad : none ∈ wait_handles) :
    WaitMultiple self heap alertable_state_ wait_handles wait_all is_alertable timeout
      = some ((WaitResult.kFailed, 0), heap, alertable_state_) ∧
    Wait self heap alertable_state_ none is_alertable timeout
      = some (WaitResult.kFailed, heap, alertable_state_) := by
  refine ⟨?_, rfl⟩
  simp only [WaitMultiple, WaitMultiple_conditions_none wait_handles [] hbad]

/-- C13 at Scenario D followed by a handle that is not waitable: event B is signaled, the
wait is alertable, and still nothing happens. -/
theorem WaitMultiple_validates_handles_witness :
    WaitMultiple 7 scenarioD false [some 1, some 0, none] false true 0
      = some ((WaitResult.kFailed, 0), scenarioD, false) :=
  (WaitMultiple_validates_handles 7 scenarioD false [some 1, some 0, none] false true 0
    (by decide)).1

/-- Storing at an address the object that is already there changes nothing. -/
theorem Heap.set_self (heap : Heap) (p : Ptr) (c : PosixConditionBase) (h : heap p = c) :
    heap.set p c = heap := by
  funext q
  by_cases hq : q = p
  · subst hq; simp [Heap.set, h]
  · simp [Heap.set, hq]

/-- A `Signal()` that returns false leaves the heap as it is. -/
theorem Signal_false_unchanged (self : ThreadId) (callbacks : Nat → Heap → Heap) (heap : Heap)
    (p : Ptr) (h : (PosixConditionBase.Signal self callbacks heap p).1 = false) :
    (PosixConditionBase.Signal self callbacks heap p).2 = heap := by
  unfold PosixConditionBase.Signal at h ⊢
  split at h
  · simp [PosixCondition_Event.Signal] at h
  · rename_i c hc
    simp only [PosixCondition_Semaphore.Signal, PosixCondition_Semaphore.Release] at h ⊢
    split at h
    · simp at h
    · rename_i hn
      rw [if_neg hn]
      exact Heap.set_self heap p _ hc
  · rename_i c hc
    simp only [PosixCondition_Mutant.Release] at h ⊢
    split at h
    · simp at h
    · rename_i hn
      rw [if_neg hn]
      exact Heap.set_self heap p _ hc
  · simp at h
  · simp at h

/-- C14: when `Signal()` on the first handle returns false, `SignalAndWait` returns `kFailed`
and the heap, the second handle included, is unchanged; that is the case for a semaphore
whose count equals its maximum and for a mutant not owned by the caller; when `Signal()`
returns true, `SignalAndWait` is the public `Wait` on the second handle run in the heap that
the signal leaves. -/
theorem SignalAndWait_after_signal (self : ThreadId) (callbacks : Nat → Heap → Heap)
    (heap : Heap) (alertable_state_ : Bool) (ps pw : Ptr) (is_alertable : Bool)
    (timeout : Int) :
    ((PosixConditionBase.Signal self callbacks heap ps).1 = false →
      SignalAndWait self callbacks heap alertable_state_ (some ps) (some pw) is_alertable timeout
        = some (WaitResult.kFailed, heap, if is_alertable then false else alertable_state_)) ∧
    (∀ c : PosixCondition_Semaphore, heap ps = .Semaphore c → c.count_ = c.maximum_count_ →
      (PosixConditionBase.Signal self callbacks heap ps).1 = false) ∧
    (∀ c : PosixCondition_Mutant, heap ps = .Mutant c → c.owner_ ≠ some self →
      (PosixConditionBase.Signal self callbacks heap ps).1 = false) ∧
    ((PosixConditionBase.Signal self callbacks heap ps).1 = true →
      SignalAndWait self callbacks heap alertable_state_ (some ps) (some pw) is_alertable timeout
        = Wait self (PosixConditionBase.Signal self callbacks heap ps).2 alertable_state_
            (some pw) is_alertable timeout) := by
  refine ⟨?_, ?_, ?_, ?_⟩
  · intro h
    have h2 := Signal_false_unchanged self callbacks heap ps h
    simp only [SignalAndWait, h, h2, Bool.false_eq_true, if_false]
    cases is_alertable <;> rfl
  · intro c hc hmax
    simp [PosixConditionBase.Signal, hc, PosixCondition_Semaphore.Signal,
      PosixCondition_Semaphore.Release, uint32_sub, hmax]
  · intro c hc ho
    simp [PosixConditionBase.Signal, hc, PosixCondition_Mutant.Release, ho]
  · intro h
    simp only [SignalAndWait, h, if_true, Wait]

/-- C14 at a semaphore at its maximum and a signaled event: the signal fails, the result is
`kFailed` and the event stays signaled. -/
theorem SignalAndWait_after_signal_witness :
    (PosixConditionBase.Signal 7 (fun _ h => h) heapFull 0).1 = false ∧
    SignalAndWait 7 (fun _ h => h) heapFull false (some 0) (some 1) false 0
      = some (WaitResult.kFailed, heapFull, if false then false else false) :=
  ⟨by decide,
    (SignalAndWait_after_signal 7 (fun _ h => h) heapFull false 0 1 false 0).1 (by decide)⟩

/-! ## Theorems: Timer -/

/-- C15: after a `Set` that returns true the timer is unsignaled, whatever its state before,
so that a zero-timeout wait returns `kTimeout`, and it stores the callback passed; after the
completion routine the timer is signaled; the wait that follows succeeds and clears the
signal of a synchronization timer, and leaves a manual-reset timer signaled. -/
theorem Timer_Set_then_completion (self : ThreadId) (host : TimerHost)
    (c : PosixCondition_Timer) (due_time period : Int) (opt_callback : Option Nat) :
    ((PosixCondition_Timer.Set host c due_time period opt_callback).1 = true →
      (PosixCondition_Timer.Set host c due_time period opt_callback).2.signal_ = false ∧
      (PosixCondition_Timer.Set host c due_time period opt_callback).2.callback_
        = opt_callback ∧
      (PosixCondition_Timer.Set host c due_time period opt_callback).2.manual_reset_
        = c.manual_reset_ ∧
      PosixConditionBase.Wait self
          (.Timer (PosixCondition_Timer.Set host c due_time period opt_callback).2) 0
        = some (WaitResult.kTimeout,
            .Timer (PosixCondition_Timer.Set host c due_time period opt_callback).2)) ∧
    c.CompletionRoutine.2 = { c with signal_ := true } ∧
    (∀ timeout : Int, c.manual_reset_ = false →
      PosixConditionBase.Wait self (.Timer c.CompletionRoutine.2) timeout
        = some (WaitResult.kSuccess, .Timer { c with signal_ := false })) ∧
    (∀ timeout : Int, c.manual_reset_ = true →
      PosixConditionBase.Wait self (.Timer c.CompletionRoutine.2) timeout
        = some (WaitResult.kSuccess, .Timer { c with signal_ := true })) := by
  have hzero : ¬ ((0 : Int) = milliseconds_max) := by simp [milliseconds_max]
  have hset : (PosixCondition_Timer.Set host c due_time period opt_callback).2.signal_ = false ∧
      (PosixCondition_Timer.Set host c due_time period opt_callback).2.callback_
        = opt_callback ∧
      (PosixCondition_Timer.Set host c due_time period opt_callback).2.manual_reset_
        = c.manual_reset_ := by
    unfold PosixCondition_Timer.Set
    simp only
    split
    · split <;> exact ⟨rfl, rfl, rfl⟩
    · exact ⟨rfl, rfl, rfl⟩
  refine ⟨fun _ => ⟨hset.1, hset.2.1, hset.2.2, ?_⟩, rfl, ?_, ?_⟩
  · simp [PosixConditionBase.Wait, PosixConditionBase.signaled, PosixCondition_Timer.signaled,
      hset.1, hzero, cond_wait_for]
  · intro timeout hm
    simp [PosixConditionBase.Wait, PosixConditionBase.signaled, PosixCondition_Timer.signaled,
      PosixCondition_Timer.CompletionRoutine, PosixConditionBase.post_execution,
      PosixCondition_Timer.post_execution, hm]
  · intro timeout hm
    simp [PosixConditionBase.Wait, PosixConditionBase.signaled, PosixCondition_Timer.signaled,
      PosixCondition_Timer.CompletionRoutine, PosixConditionBase.post_execution,
      PosixCondition_Timer.post_execution, hm]

/-- C15 at a signaled timer re-armed on a host where every call succeeds. -/
theorem Timer_Set_then_completion_witness :
    (PosixCondition_Timer.Set hostOk timerSignaled 1000000 0 (some 2)).1 = true ∧
    (PosixCondition_Timer.Set hostOk timerSignaled 1000000 0 (some 2)).2.signal_ = false ∧
    (PosixCondition_Timer.Set hostOk timerSignaled 1000000 0 (some 2)).2.callback_ = some 2 :=
  ⟨by decide,
    ((Timer_Set_then_completion 7 hostOk timerSignaled 1000000 0 (some 2)).1 (by decide)).1,
    ((Timer_Set_then_completion 7 hostOk timerSignaled 1000000 0 (some 2)).1 (by decide)).2.1⟩

/-- C16 (as stated) fails: a timer armed with the callback 2 still holds it after its
completion routine has run, and a second completion without an intervening `Set` captures
and invokes the callback 2 again. -/
theorem Timer_completion_clears_callback_counterexample :
    (PosixCondition_Timer.Set hostOk timerSignaled 1000000 0 (some 2)).2
      = { callback_ := some 2, timer_ := some 1, signal_ := false, manual_reset_ := false } ∧
    PosixCondition_Timer.CompletionRoutine
        { callback_ := some 2, timer_ := some 1, signal_ := false, manual_reset_ := false }
      = (some 2,
          { callback_ := some 2, timer_ := some 1, signal_ := true, manual_reset_ := false }) ∧
    PosixCondition_Timer.CompletionRoutine
        { callback_ := some 2, timer_ := some 1, signal_ := true, manual_reset_ := false }
      = (some 2,
          { callback_ := some 2, timer_ := some 1, signal_ := true, manual_reset_ := false }) := by
  refine ⟨?_, ?_, ?_⟩ <;> decide

/-- C16 (amended): the completion routine captures the stored callback and leaves it
stored: it invokes exactly the callback the timer holds (none when it holds none), the timer
holds the same callback afterwards, and a second completion without an intervening `Set`
captures the same callback again; the same holds when the completion is reached through
`Signal()`. -/
theorem Timer_completion_keeps_callback (c : PosixCondition_Timer) :
    c.CompletionRoutine.1 = c.callback_ ∧
    c.CompletionRoutine.2.callback_ = c.callback_ ∧
    c.CompletionRoutine.2.CompletionRoutine = (c.callback_, c.CompletionRoutine.2) ∧
    (∀ (callbacks : Nat → Heap → Heap) (heap : Heap) (p : Ptr),
      (CompletionRoutine callbacks heap p c).1 = c.callback_) ∧
    (∀ (self : ThreadId) (callbacks : Nat → Heap → Heap) (heap : Heap) (p : Ptr),
      heap p = .Timer c →
      PosixConditionBase.Signal self callbacks heap p
        = (true, match c.callback_ with
            | some f => callbacks f (heap.set p (.Timer { c with signal_ := true }))
            | none => heap.set p (.Timer { c with signal_ := true }))) := by
  have h1 : c.CompletionRoutine = (c.callback_, { c with signal_ := true }) := by
    unfold PosixCondition_Timer.CompletionRoutine
    cases c.callback_ <;> rfl
  refine ⟨by rw [h1], by rw [h1], ?_, ?_, ?_⟩
  · rw [h1]
    unfold PosixCondition_Timer.CompletionRoutine
    cases c.callback_ <;> rfl
  · intro callbacks heap p
    unfold CompletionRoutine
    rw [h1]
    cases c.callback_ <;> rfl
  · intro self callbacks heap p hp
    unfold PosixConditionBase.Signal CompletionRoutine
    rw [hp]
    simp only [h1]
    cases c.callback_ <;> rfl

/-- C16 (amended) at a timer holding the callback 1: a signal of the timer runs it. -/
theorem Timer_completion_keeps_callback_witness :
    PosixConditionBase.Signal 7 (fun _ h => h) (fun _ => .Timer timerSignaled) 0
      = (true, match timerSignaled.callback_ with
          | some f => (fun _ h => h) f
              (Heap.set (fun _ => .Timer timerSignaled) 0
                (.Timer { timerSignaled with signal_ := true }))
          | none => Heap.set (fun _ => .Timer timerSignaled) 0
              (.Timer { timerSignaled with signal_ := true })) :=
  (Timer_completion_keeps_callback timerSignaled).2.2.2.2 7 (fun _ h => h)
    (fun _ => .Timer timerSignaled) 0 rfl

/-- C17 (as stated) fails: on a signaled timer holding the callback 1 and no OS timer, a
`Set` with the callback 2 on a host that denies `timer_create` returns false, and the timer
is left unsignaled and holding the callback 2. -/
theorem Timer_Set_denied_counterexample :
    PosixCondition_Timer.Set hostDenied timerSignaled 1000000 0 (some 2)
      = (false,
          { callback_ := some 2, timer_ := none, signal_ := false, manual_reset_ := false }) ∧
    timerSignaled.signal_ = true ∧ timerSignaled.callback_ = some 1 := by
  refine ⟨?_, ?_, ?_⟩ <;> decide

/-- C17 (amended): when the timer holds no OS timer and the host denies `timer_create`,
`Set` returns false and the timer still holds no OS timer and keeps its reset mode; its
signaled flag is cleared and its callback is the one passed, as after any `Set`. -/
theorem Timer_Set_denied (host : TimerHost) (c : PosixCondition_Timer) (due_time period : Int)
    (opt_callback : Option Nat) (hnone : c.timer_ = none) (hdeny : host.timer_create = none) :
    PosixCondition_Timer.Set host c due_time period opt_callback
      = (false, { callback_ := opt_callback, timer_ := none, signal_ := false,
                  manual_reset_ := c.manual_reset_ }) := by
  unfold PosixCondition_Timer.Set
  simp only [hnone, hdeny]

/-- C17 (amended) at the signaled timer on the denying host. -/
theorem Timer_Set_denied_witness :
    PosixCondition_Timer.Set hostDenied timerSignaled 1000000 0 (some 2)
      = (false, { callback_ := some 2, timer_ := none, signal_ := false,
                  manual_reset_ := timerSignaled.manual_reset_ }) :=
  Timer_Set_denied hostDenied timerSignaled 1000000 0 (some 2) rfl rfl

/-- What `Cancel()` does to the object and to the host: it sets `timer_` to null and changes
no other field; it deletes the timer of the handle it holds when `timer_delete` succeeds, and
calls no `timer_delete` when `timer_` is null; a second `Cancel()`, on any host, returns true,
deletes nothing and leaves the state of the first. -/
theorem Timer_Cancel_effect (host host' : TimerHost) (c : PosixCondition_Timer)
    (timers : List Nat) :
    (PosixCondition_Timer.Cancel host c).2 = { c with timer_ := none } ∧
    (PosixCondition_Timer.Cancel host c).2.signal_ = c.signal_ ∧
    (PosixCondition_Timer.Cancel host c).2.callback_ = c.callback_ ∧
    (PosixCondition_Timer.Cancel host c).2.manual_reset_ = c.manual_reset_ ∧
    PosixCondition_Timer.Cancel host' (PosixCondition_Timer.Cancel host c).2
      = (true, (PosixCondition_Timer.Cancel host c).2) ∧
    PosixCondition_Timer.Cancel_timers host' (PosixCondition_Timer.Cancel host c).2 timers
      = timers ∧
    (c.timer_ = none → PosixCondition_Timer.Cancel host c = (true, c) ∧
      PosixCondition_Timer.Cancel_timers host c timers = timers) ∧
    (∀ t, c.timer_ = some t → host.timer_delete t = 0 →
      PosixCondition_Timer.Cancel host c = (true, { c with timer_ := none }) ∧
      PosixCondition_Timer.Cancel_timers host c timers = timers.erase t) := by
  have h1 : (PosixCondition_Timer.Cancel host c).2 = { c with timer_ := none } := by
    unfold PosixCondition_Timer.Cancel
    split
    · rfl
    · rename_i hn
      cases c
      simp only at hn
      simp [hn]
  refine ⟨h1, by rw [h1], by rw [h1], by rw [h1], ?_, ?_, ?_, ?_⟩
  · rw [h1]
    rfl
  · rw [h1]
    rfl
  · intro hn
    unfold PosixCondition_Timer.Cancel PosixCondition_Timer.Cancel_timers
    simp only [hn, and_self]
  · intro t ht hd
    unfold PosixCondition_Timer.Cancel PosixCondition_Timer.Cancel_timers
    simp [ht, hd]

/-- C18, the code at the failing input: on a host that hands out the handle 0, `Set` on a
fresh timer returns true and one interval timer, of handle 0, exists, but `timer_` holds the
null value; `Cancel()` then returns true, calls no `timer_delete`, and the interval timer
still exists, so that its next completion still invokes the callback, and a further `Set`
creates a second interval timer beside it.  With the handle 1 the same `Set` and `Cancel()`
leave no interval timer. -/
theorem Timer_Cancel_null_handle :
    PosixCondition_Timer.Set hostFirst Timer.CreateSynchronizationTimer 1000000 1 (some 2)
      = (true,
          { callback_ := some 2, timer_ := none, signal_ := false, manual_reset_ := false }) ∧
    PosixCondition_Timer.Set_timers hostFirst Timer.CreateSynchronizationTimer [] = [0] ∧
    PosixCondition_Timer.Cancel hostFirst
        { callback_ := some 2, timer_ := none, signal_ := false, manual_reset_ := false }
      = (true,
          { callback_ := some 2, timer_ := none, signal_ := false, manual_reset_ := false }) ∧
    PosixCondition_Timer.Cancel_timers hostFirst
        { callback_ := some 2, timer_ := none, signal_ := false, manual_reset_ := false } [0]
      = [0] ∧
    (PosixCondition_Timer.CompletionRoutine
        { callback_ := some 2, timer_ := none, signal_ := false, manual_reset_ := false }).1
      = some 2 ∧
    PosixCondition_Timer.Set_timers hostOk
        { callback_ := some 2, timer_ := none, signal_ := false, manual_reset_ := false } [0]
      = [1, 0] ∧
    PosixCondition_Timer.Set hostOk Timer.CreateSynchronizationTimer 1000000 1 (some 2)
      = (true,
          { callback_ := some 2, timer_ := some 1, signal_ := false, manual_reset_ := false }) ∧
    PosixCondition_Timer.Set_timers hostOk Timer.CreateSynchronizationTimer [] = [1] ∧
    PosixCondition_Timer.Cancel_timers hostOk
        { callback_ := some 2, timer_ := some 1, signal_ := false, manual_reset_ := false } [1]
      = [] := by
  refine ⟨?_, ?_, ?_, ?_, ?_, ?_, ?_, ?_, ?_⟩ <;> decide

/-! ## Theorems: Thread control -/

/-- C19, the code at the failing input: on a thread whose state is `kFinished`, `Suspend`
returns and leaves the state `kSuspended` with `suspend_count_ = 1`; `Resume` then returns
true; and the wake-up of the target, `WaitSuspended`, leaves the state `kRunning`. -/
theorem Thread_Suspend_leaves_Finished :
    threadFinished.state_ = State.kFinished ∧
    PosixCondition_Thread.Suspend threadFinished none 0
      = some (true, none, { threadFinished with state_ := State.kSuspended,
                                                suspend_count_ := 1 }) ∧
    PosixCondition_Thread.Resume
        { threadFinished with state_ := State.kSuspended, suspend_count_ := 1 } none
      = some (true, none, { threadFinished with state_ := State.kSuspended,
                                                suspend_count_ := 0 }) ∧
    PosixCondition_Thread.WaitSuspended
        { threadFinished with state_ := State.kSuspended, suspend_count_ := 0 }
      = some { threadFinished with state_ := State.kRunning, suspend_count_ := 0 } := by
  refine ⟨?_, ?_, ?_, ?_⟩ <;> decide

/-- On a thread whose state is `kFinished`, `Resume` and `Terminate` leave every field as
it is. -/
theorem Thread_Finished_kept_by_Resume_Terminate (c : PosixCondition_Thread)
    (hf : c.state_ = State.kFinished) :
    (∀ out, ∃ out', PosixCondition_Thread.Resume c out = some (false, out', c)) ∧
    (∀ pthread_self exit_code,
      (PosixCondition_Thread.Terminate c pthread_self exit_code).2 = c) := by
  constructor
  · intro out
    refine ⟨out.map (fun _ => 0), ?_⟩
    simp [PosixCondition_Thread.Resume, PosixCondition_Thread.WaitStarted, cond_wait, hf]
  · intro pthread_self exit_code
    unfold PosixCondition_Thread.Terminate
    simp only [hf, if_true]
    split <;> rfl

/-- C20: on a started thread `Resume` returns, and it returns true exactly when the state is
`kSuspended`; when it returns true, `suspend_count_` is the 32-bit decrement of its value
before (one less, when that value is positive), no other field changes, and a non-null out
parameter holds the value before; when it returns false the thread is unchanged and a
non-null out parameter holds 0. -/
theorem Thread_Resume_iff (c : PosixCondition_Thread) (out : Option Nat)
    (hstarted : c.state_ ≠ State.kUninitialized) :
    ∃ r, PosixCondition_Thread.Resume c out = some r ∧
      (r.1 = true ↔ c.state_ = State.kSuspended) ∧
      (r.1 = true →
        r.2.2 = { c with suspend_count_ := uint32_sub c.suspend_count_ 1 } ∧
        (0 < c.suspend_count_ → r.2.2.suspend_count_ + 1 = c.suspend_count_) ∧
        r.2.2.state_ = c.state_ ∧
        r.2.1 = out.map (fun _ => c.suspend_count_)) ∧
      (r.1 = false → r.2.2 = c ∧ r.2.1 = out.map (fun _ => 0)) := by
  have hws : c.WaitStarted = some () := by
    simp [PosixCondition_Thread.WaitStarted, cond_wait, hstarted]
  by_cases hs : c.state_ = State.kSuspended
  · refine ⟨(true, out.map (fun _ => c.suspend_count_),
        { c with suspend_count_ := uint32_sub c.suspend_count_ 1 }), ?_, ?_, ?_, ?_⟩
    · simp only [PosixCondition_Thread.Resume, hws, hs, ne_eq, not_true_eq_false, if_false]
      cases out <;> rfl
    · simp [hs]
    · intro _
      refine ⟨rfl, ?_, rfl, rfl⟩
      intro hpos
      simp only [uint32_pred c.suspend_count_ hpos]
      omega
    · intro h; simp at h
  · refine ⟨(false, out.map (fun _ => 0), c), ?_, ?_, ?_, ?_⟩
    · simp [PosixCondition_Thread.Resume, hws, hs]
    · simp [hs]
    · intro h; simp at h
    · intro _; exact ⟨rfl, rfl⟩

/-- C20 at a thread suspended once. -/
theorem Thread_Resume_iff_witness :
    ∃ r, PosixCondition_Thread.Resume threadSuspended (some 7) = some r ∧
      (r.1 = true ↔ threadSuspended.state_ = State.kSuspended) ∧
      (r.1 = true →
        r.2.2 = { threadSuspended with
                  suspend_count_ := uint32_sub threadSuspended.suspend_count_ 1 } ∧
        (0 < threadSuspended.suspend_count_ →
          r.2.2.suspend_count_ + 1 = threadSuspended.suspend_count_) ∧
        r.2.2.state_ = threadSuspended.state_ ∧
        r.2.1 = (some 7 : Option Nat).map (fun _ => threadSuspended.suspend_count_)) ∧
      (r.1 = false → r.2.2 = threadSuspended ∧ r.2.1 = (some 7 : Option Nat).map (fun _ => 0)) :=
  Thread_Resume_iff threadSuspended (some 7) (by decide)

/-- The sequence `Resume`, `Resume` on a thread suspended once, evaluated: both calls return
true, the second reports 0 and wraps `suspend_count_` to `2^32 - 1`. -/
theorem Thread_Resume_twice :
    PosixCondition_Thread.Resume threadSuspended (some 7)
      = some (true, some 1, { threadSuspended with suspend_count_ := 0 }) ∧
    PosixCondition_Thread.Resume { threadSuspended with suspend_count_ := 0 } (some 7)
      = some (true, some 0, { threadSuspended with suspend_count_ := 4294967295 }) := by
  constructor <;> decide

/-- Field by field description of `Suspend` on a started thread. -/
theorem Thread_Suspend_started (c : PosixCondition_Thread) (out : Option Nat) (kill : Int)
    (hstarted : c.state_ ≠ State.kUninitialized) :
    PosixCondition_Thread.Suspend c out kill
      = some (decide (kill = 0), out.map (fun _ => c.suspend_count_),
          { c with state_ := State.kSuspended,
                   suspend_count_ := uint32_add c.suspend_count_ 1 }) := by
  have hws : c.WaitStarted = some () := by
    simp [PosixCondition_Thread.WaitStarted, cond_wait, hstarted]
  simp only [PosixCondition_Thread.Suspend, hws]
  cases out <;> rfl

/-- After `k` suspensions of a thread with count `n` the count is `n + k` and the calls have
reported `n, n + 1, ..., n + k - 1`. -/
theorem Suspend_times_spec (k : Nat) :
    ∀ (c : PosixCondition_Thread) (n : Nat), c.state_ ≠ State.kUninitialized →
      c.suspend_count_ = n → n + k < 2 ^ 32 → 1 ≤ k →
      Suspend_times k c
        = some (List.range' n k,
            { c with state_ := State.kSuspended, suspend_count_ := n + k }) := by
  induction k with
  | zero => intro c n _ _ _ h; omega
  | succ k ih =>
    intro c n hstarted hn hlt _
    have hadd : uint32_add c.suspend_count_ 1 = n + 1 := by
      simp only [uint32_add, UINT32_MOD, hn]
      omega
    simp only [Suspend_times, Thread_Suspend_started c (some 0) 0 hstarted, hadd,
      Option.map_some', Option.getD_some]
    by_cases hk : k = 0
    · subst hk
      simp [Suspend_times, hn]
    · rw [ih _ (n + 1) (by simp) rfl (by omega) (by omega)]
      simp only [List.range'_succ, hn]
      congr 3
      omega

/-- On a suspended thread with count `n`, `j ≤ n` calls of `Resume` take `j` off the count
and leave the state `kSuspended`. -/
theorem Resume_times_spec (j : Nat) :
    ∀ (c : PosixCondition_Thread) (n : Nat), c.state_ = State.kSuspended →
      c.suspend_count_ = n → j ≤ n →
      ThreadOp.run c (List.replicate j ThreadOp.Resume)
        = { c with suspend_count_ := n - j } := by
  induction j with
  | zero =>
    intro c n _ hn _
    cases c
    simp only at hn
    simp [ThreadOp.run, hn]
  | succ j ih =>
    intro c n hs hn hj
    have hws : c.WaitStarted = some () := by
      simp [PosixCondition_Thread.WaitStarted, cond_wait, hs]
    have hr : PosixCondition_Thread.Resume c none
        = some (true, none, { c with suspend_count_ := n - 1 }) := by
      simp only [PosixCondition_Thread.Resume, hws, hs, ne_eq, not_true_eq_false, if_false,
        Option.map_none', hn, uint32_pred n (by omega)]
    have := ih { c with suspend_count_ := n - 1 } (n - 1) hs rfl (by omega)
    simp only [ThreadOp.run, List.replicate_succ, List.foldl_cons, ThreadOp.apply, hr]
      at this ⊢
    rw [this]
    congr 1
    omega

/-- C21 (as stated) fails for `k = 2`: after two `Suspend` calls on a running thread, which
report 0 and 1, one `Resume` leaves `suspend_count_ = 1`, and the target's wait in
`WaitSuspended` for `suspend_count_ == 0` does not end. -/
theorem Thread_single_Resume_counterexample :
    Suspend_times 2 threadRunning
      = some ([0, 1], { threadRunning with state_ := State.kSuspended,
                                           suspend_count_ := 2 }) ∧
    ThreadOp.run { threadRunning with state_ := State.kSuspended, suspend_count_ := 2 }
        [ThreadOp.Resume]
      = { threadRunning with state_ := State.kSuspended, suspend_count_ := 1 } ∧
    PosixCondition_Thread.WaitSuspended
        { threadRunning with state_ := State.kSuspended, suspend_count_ := 1 } = none := by
  refine ⟨?_, ?_, ?_⟩ <;> decide

/-- C21 (amended): after `k ≥ 1` `Suspend` calls on a running thread with count 0, which
report `0, ..., k - 1` and leave the count `k`, the condition the target waits on holds after
`k` calls of `Resume` and after no smaller number of them; after the `k`-th the target
returns to `kRunning`. -/
theorem Thread_k_Suspend_k_Resume (c : PosixCondition_Thread) (k j : Nat)
    (hrun : c.state_ = State.kRunning) (h0 : c.suspend_count_ = 0) (hk : 1 ≤ k)
    (hlt : k < 2 ^ 32) (hj : j ≤ k) :
    Suspend_times k c
      = some (List.range' 0 k, { c with state_ := State.kSuspended, suspend_count_ := k }) ∧
    ThreadOp.run { c with state_ := State.kSuspended, suspend_count_ := k }
        (List.replicate j ThreadOp.Resume)
      = { c with state_ := State.kSuspended, suspend_count_ := k - j } ∧
    (j < k → PosixCondition_Thread.WaitSuspended
        { c with state_ := State.kSuspended, suspend_count_ := k - j } = none) ∧
    (j = k → PosixCondition_Thread.WaitSuspended
        { c with state_ := State.kSuspended, suspend_count_ := k - j } = some c) := by
  refine ⟨?_, ?_, ?_, ?_⟩
  · have := Suspend_times_spec k c 0 (by rw [hrun]; decide) h0 (by omega) hk
    simpa using this
  · exact Resume_times_spec j { c with state_ := State.kSuspended, suspend_count_ := k } k
      rfl rfl hj
  · intro hjk
    have : ¬ (k - j = 0) := by omega
    simp [PosixCondition_Thread.WaitSuspended, cond_wait, this]
  · intro hjk
    have : k - j = 0 := by omega
    cases c
    simp only at hrun h0
    simp [PosixCondition_Thread.WaitSuspended, cond_wait, this, hrun, h0]

/-- C21 (amended) at `k = 3`: three suspensions, three resumptions. -/
theorem Thread_k_Suspend_k_Resume_witness :
    PosixCondition_Thread.WaitSuspended
        { threadRunning with state_ := State.kSuspended, suspend_count_ := 3 - 3 }
      = some threadRunning :=
  (Thread_k_Suspend_k_Resume threadRunning 3 3 rfl rfl (by decide) (by decide)
    (by decide)).2.2.2 rfl

/-- Any number of waits on a thread object whose `signaled_` is set all succeed and leave
the object as it is. -/
theorem Wait_each_thread_signaled (timeout : Int) (c : PosixCondition_Thread)
    (hs : c.signaled_ = true) :
    ∀ selfs : List ThreadId, Wait_each timeout (.Thread c) selfs
      = some (List.replicate selfs.length WaitResult.kSuccess, .Thread c) := by
  intro selfs
  induction selfs with
  | nil => rfl
  | cons self rest ih =>
    have hw : PosixConditionBase.Wait self (.Thread c) timeout
        = some (WaitResult.kSuccess, .Thread c) := by
      simp [PosixConditionBase.Wait, PosixConditionBase.signaled,
        PosixCondition_Thread.signaled, PosixConditionBase.post_execution,
        PosixCondition_Thread.post_execution, hs]
    simp only [Wait_each, hw, ih, List.length_cons, List.replicate_succ]

/-- C22: `Terminate(exit_code)` on a thread that is not `kFinished` leaves the state
`kFinished`, the exit code `exit_code` and `signaled_` set, whoever calls it, and every later
wait on the thread, with any timeout, succeeds; on a thread that is `kFinished` a call from
another thread returns and changes nothing; and the return of the thread body leaves the
state `kFinished`, the exit code 0 and `signaled_` set, so that waits succeed as well. -/
theorem Thread_Terminate_publishes (c : PosixCondition_Thread) (pthread_self : Nat)
    (exit_code : Int) :
    (c.state_ ≠ State.kFinished →
      (c.Terminate pthread_self exit_code).2
        = { c with state_ := State.kFinished, exit_code_ := exit_code, signaled_ := true } ∧
      (c.Terminate pthread_self exit_code).1
        = (if pthread_self = c.thread_ then TerminateOutcome.exited
           else TerminateOutcome.returned) ∧
      ∀ (selfs : List ThreadId) (timeout : Int),
        Wait_each timeout (.Thread (c.Terminate pthread_self exit_code).2) selfs
          = some (List.replicate selfs.length WaitResult.kSuccess,
              .Thread (c.Terminate pthread_self exit_code).2)) ∧
    (c.state_ = State.kFinished → pthread_self ≠ c.thread_ →
      c.Terminate pthread_self exit_code = (TerminateOutcome.returned, c)) ∧
    ThreadStartRoutine_leave c
      = { c with state_ := State.kFinished, exit_code_ := 0, signaled_ := true } ∧
    (∀ (selfs : List ThreadId) (timeout : Int),
      Wait_each timeout (.Thread (ThreadStartRoutine_leave c)) selfs
        = some (List.replicate selfs.length WaitResult.kSuccess,
            .Thread (ThreadStartRoutine_leave c))) := by
  refine ⟨?_, ?_, rfl, ?_⟩
  · intro hnf
    have h2 : (c.Terminate pthread_self exit_code).2
        = { c with state_ := State.kFinished, exit_code_ := exit_code, signaled_ := true } := by
      unfold PosixCondition_Thread.Terminate
      simp only [hnf, if_false]
      split <;> rfl
    refine ⟨h2, ?_, ?_⟩
    · unfold PosixCondition_Thread.Terminate
      simp only [hnf, if_false]
      by_cases hp : pthread_self = c.thread_ <;> simp [hp]
    · intro selfs timeout
      rw [h2]
      exact Wait_each_thread_signaled timeout _ rfl selfs
  · intro hf hp
    unfold PosixCondition_Thread.Terminate
    simp [hf, hp]
  · intro selfs timeout
    exact Wait_each_thread_signaled timeout _ rfl selfs

/-- C22 at a running thread terminated with exit code 5 by another thread. -/
theorem Thread_Terminate_publishes_witness :
    threadRunning.state_ ≠ State.kFinished ∧
    (threadRunning.Terminate 2 5).2
      = { threadRunning with state_ := State.kFinished, exit_code_ := 5, signaled_ := true } :=
  ⟨by decide, ((Thread_Terminate_publishes threadRunning 2 5).1 (by decide)).1⟩

/-- C29, the code at the failing input: on a running thread with count 0, `Suspend` then
`Resume` leave the state `kSuspended` with count 0 (only the wake-up of the target resets the
state); a second `Resume` before that wake-up returns true, reports 0 and wraps the count to
`2^32 - 1`, after which the target's wait for `suspend_count_ == 0` does not end. -/
theorem Thread_Resume_wraps_count :
    threadRunning.state_ = State.kRunning ∧ threadRunning.suspend_count_ = 0 ∧
    ThreadOp.run threadRunning [ThreadOp.Suspend 0, ThreadOp.Resume]
      = { threadRunning with state_ := State.kSuspended, suspend_count_ := 0 } ∧
    PosixCondition_Thread.Resume
        { threadRunning with state_ := State.kSuspended, suspend_count_ := 0 } (some 7)
      = some (true, some 0,
          { threadRunning with state_ := State.kSuspended, suspend_count_ := 4294967295 }) ∧
    ThreadOp.run threadRunning [ThreadOp.Suspend 0, ThreadOp.Resume, ThreadOp.Resume]
      = { threadRunning with state_ := State.kSuspended, suspend_count_ := 4294967295 } ∧
    PosixCondition_Thread.WaitSuspended
        { threadRunning with state_ := State.kSuspended, suspend_count_ := 4294967295 }
      = none := by
  refine ⟨?_, ?_, ?_, ?_, ?_, ?_⟩ <;> decide

/-- Once the running minimum is at most the loop counter, the loop of `WaitMultiple` returns
it unchanged. -/
theorem WaitMultiple_loop_first_le (self : ThreadId) (wait_all : Bool) :
    ∀ (l : List Ptr) (i first : Nat) (heap : Heap), first ≤ i →
      (WaitMultiple_loop self wait_all l i first heap).1 = first := by
  intro l
  induction l with
  | nil => intro i first heap _; rfl
  | cons a rest ih =>
    intro i first heap hle
    have hnot : ¬ (first > i) := by omega
    by_cases ha : (heap a).signaled self = true
    · cases wait_all with
      | false => simp [WaitMultiple_loop, ha, hnot]
      | true =>
        simp only [WaitMultiple_loop, ha, if_true, Bool.not_true, Bool.false_eq_true, if_false,
          hnot]
        exact ih _ _ _ (by omega)
    · simp only [WaitMultiple_loop, ha, Bool.false_eq_true, if_false]
      exact ih _ _ _ (by omega)

/-- A successful `PosixConditionBase::WaitMultiple` on a non-empty list returns the position
of a handle that was signaled; in wait-all mode that position is 0. -/
theorem WaitMultiple_index_inner (self : ThreadId) (heap : Heap) (handles : List Ptr)
    (wait_all : Bool) (timeout : Int) (i : Nat) (heap' : Heap) (hne : handles ≠ [])
    (hlen : handles.length < 2 ^ 32)
    (h : PosixConditionBase.WaitMultiple self heap handles wait_all timeout
      = some ((WaitResult.kSuccess, i), heap')) :
    i < handles.length ∧ (∃ p, handles[i]? = some p ∧ (heap p).signaled self = true) ∧
      (wait_all = true → i = 0) := by
  unfold PosixConditionBase.WaitMultiple at h
  simp only at h
  split at h
  · exact absurd h (by simp)
  · rename_i hexec
    simp only [Option.some.injEq, Prod.mk.injEq, true_and] at h
    obtain ⟨hi, _⟩ := h
    have hagg : (if wait_all = true then handles.all (fun h => (heap h).signaled self)
        else handles.any (fun h => (heap h).signaled self)) = true := by
      by_contra hc
      simp only [hc, Bool.false_eq_true, if_false] at hexec
      split at hexec
      · simp [cond_wait, hc] at hexec
      · simp [cond_wait_for, hc] at hexec
    cases wait_all with
    | true =>
      simp only [if_true, List.all_eq_true] at hagg
      obtain ⟨a, rest, rfl⟩ := List.exists_cons_of_ne_nil hne
      have ha : (heap a).signaled self = true := hagg a (List.mem_cons_self _ _)
      have h0 : i = 0 := by
        rw [← hi]
        simp only [WaitMultiple_loop, ha, if_true, Bool.not_true, Bool.false_eq_true, if_false]
        have hmax : SIZE_MAX > 0 := by simp [SIZE_MAX]
        simp only [hmax, if_true]
        exact WaitMultiple_loop_first_le self true rest 1 0 _ (by omega)
      subst h0
      exact ⟨by simp, ⟨a, by simp, ha⟩, fun _ => rfl⟩
    | false =>
      simp only [Bool.false_eq_true, if_false, List.any_eq_true] at hagg
      obtain ⟨k, p, hk, hs, _, heq⟩ :=
        WaitMultiple_loop_any self heap handles 0 (by simp only [SIZE_MAX]; omega) hagg
      rw [heq] at hi
      simp only [Nat.zero_add] at hi
      subst hi
      refine ⟨?_, ⟨p, hk, hs⟩, fun h => absurd h (by simp)⟩
      by_contra hge
      rw [List.getElem?_eq_none (by omega)] at hk
      simp at hk
  · simp at h

/-- C28 (as stated) fails on the empty list: with `wait_all = true` the aggregate over no
handle holds, the loop runs no iteration, and `WaitMultiple` returns `kSuccess` with the
index `SIZE_MAX`, which is no position of the list; the public `WaitMultiple` passes that
result on. -/
theorem WaitMultiple_index_counterexample :
    (PosixConditionBase.WaitMultiple 7 scenarioD [] true 0).map (fun r => r.1)
      = some (WaitResult.kSuccess, 18446744073709551615) ∧
    (WaitMultiple 7 scenarioD false [] true false 0).map (fun r => r.1)
      = some (WaitResult.kSuccess, 18446744073709551615) ∧
    ¬ (18446744073709551615 < ([] : List Ptr).length) := by
  refine ⟨?_, ?_, ?_⟩ <;> decide

/-- C28 (amended): whenever `WaitMultiple`, the method or the public function on waitable
handles, returns `kSuccess` for a non-empty handle list, with either value of `wait_all`, the
returned index is a position of the list, the handle at that position was signaled when the
wait succeeded, and with `wait_all = true` the index is 0. -/
theorem WaitMultiple_index_valid (self : ThreadId) (heap : Heap) (handles : List Ptr)
    (wait_all : Bool) (timeout : Int) (hne : handles ≠ []) (hlen : handles.length < 2 ^ 32) :
    (∀ (i : Nat) (heap' : Heap),
      PosixConditionBase.WaitMultiple self heap handles wait_all timeout
        = some ((WaitResult.kSuccess, i), heap') →
      i < handles.length ∧ (∃ p, handles[i]? = some p ∧ (heap p).signaled self = true) ∧
        (wait_all = true → i = 0)) ∧
    (∀ (alertable_state_ is_alertable : Bool) (i : Nat) (heap' : Heap) (flag : Bool),
      WaitMultiple self heap alertable_state_ (handles.map some) wait_all is_alertable timeout
        = some ((WaitResult.kSuccess, i), heap', flag) →
      i < handles.length ∧ (∃ p, handles[i]? = some p ∧ (heap p).signaled self = true) ∧
        (wait_all = true → i = 0)) := by
  constructor
  · intro i heap' h
    exact WaitMultiple_index_inner self heap handles wait_all timeout i heap' hne hlen h
  · intro alertable_state_ is_alertable i heap' flag h
    unfold WaitMultiple at h
    rw [WaitMultiple_conditions_some handles []] at h
    simp only [List.nil_append] at h
    split at h
    · simp at h
    · rename_i r hr
      simp only [Option.some.injEq, Prod.mk.injEq] at h
      obtain ⟨h1, h2, _⟩ := h
      have hr' : PosixConditionBase.WaitMultiple self heap handles wait_all timeout
          = some ((WaitResult.kSuccess, i), heap') := by
        rw [hr, ← h1, ← h2]
      exact WaitMultiple_index_inner self heap handles wait_all timeout i heap' hne hlen hr'

/-- C28 (amended) at Scenario D in wait-any mode: the index returned is 1. -/
theorem WaitMultiple_index_valid_witness :
    1 < [0, 1].length ∧ (∃ p, [0, 1][1]? = some p ∧ (scenarioD p).signaled 7 = true) :=
  ⟨((WaitMultiple_index_valid 7 scenarioD [0, 1] false 0 (by decide) (by decide)).1 1
      (scenarioD.set 1 ((scenarioD 1).post_execution 7)) rfl).1,
    ((WaitMultiple_index_valid 7 scenarioD [0, 1] false 0 (by decide) (by decide)).1 1
      (scenarioD.set 1 ((scenarioD 1).post_execution 7)) rfl).2.1⟩

/-! ## Theorems: signal dispatch -/

/-- C23: for every kind `k` (0 ≤ k < `k_Count`), `GetSystemSignal` returns `SIGRTMIN + k`,
so the numbers are the contiguous range starting at `SIGRTMIN`; `GetSystemSignalType` maps
that number back to `k`; different kinds get different numbers; and when
`SIGRTMIN + k_Count ≤ SIGRTMAX` the assertion `result < SIGRTMAX` holds for every kind. -/
theorem SignalBand_one_to_one (SIGRTMIN SIGRTMAX : Int) (k : SignalType)
    (hk0 : 0 ≤ k) (hk1 : k < SignalType.k_Count) :
    (GetSystemSignal SIGRTMIN SIGRTMAX k).1 = SIGRTMIN + k ∧
    GetSystemSignalType SIGRTMIN (GetSystemSignal SIGRTMIN SIGRTMAX k).1 = k ∧
    (∀ k' : SignalType, 0 ≤ k' → k' < SignalType.k_Count →
      (GetSystemSignal SIGRTMIN SIGRTMAX k').1 = (GetSystemSignal SIGRTMIN SIGRTMAX k).1 →
      k' = k) ∧
    (∀ n : Int, SIGRTMIN ≤ n → n < SIGRTMIN + SignalType.k_Count →
      ∃ k' : SignalType, 0 ≤ k' ∧ k' < SignalType.k_Count ∧
        (GetSystemSignal SIGRTMIN SIGRTMAX k').1 = n) ∧
    (SIGRTMIN + SignalType.k_Count ≤ SIGRTMAX →
      (GetSystemSignal SIGRTMIN SIGRTMAX k).2 = true) := by
  simp only [SignalType.k_Count, GetSystemSignal, GetSystemSignalType, SignalType,
    decide_eq_true_eq] at *
  refine ⟨trivial, by omega, ?_, ?_, by omega⟩
  · intro k' _ _ h
    omega
  · intro n h0 h1
    exact ⟨n - SIGRTMIN, by omega, by omega, by omega⟩

/-- C23 on a host with `SIGRTMIN = 34` and `SIGRTMAX = 64`, for the user-callback kind. -/
theorem SignalBand_one_to_one_witness :
    (GetSystemSignal 34 64 SignalType.kThreadUserCallback).1 = 34 + SignalType.kThreadUserCallback ∧
    GetSystemSignalType 34 (GetSystemSignal 34 64 SignalType.kThreadUserCallback).1
      = SignalType.kThreadUserCallback :=
  ⟨(SignalBand_one_to_one 34 64 SignalType.kThreadUserCallback (by decide) (by decide)).1,
    (SignalBand_one_to_one 34 64 SignalType.kThreadUserCallback (by decide) (by decide)).2.1⟩

/-- C24, the code at the failing input: in a thread with no flag set, on a host where
`sigaction` succeeds (returns 0), `install_signal_handler(kTimer)` registers the handler for
signal 35 and leaves the flag of `kTimer` unset, so the second call registers again; on a host
where `sigaction` fails (returns -1) the flag is set, and the second call returns without
registering although no handler is installed. -/
theorem install_signal_handler_flag_inverted :
    (install_signal_handler 34 64 (fun _ => 0) (fun _ => false) SignalType.kTimer).2
      = some 35 ∧
    (install_signal_handler 34 64 (fun _ => 0) (fun _ => false) SignalType.kTimer).1
        SignalType.kTimer = false ∧
    (install_signal_handler 34 64 (fun _ => 0)
        (install_signal_handler 34 64 (fun _ => 0) (fun _ => false) SignalType.kTimer).1
        SignalType.kTimer).2 = some 35 ∧
    (install_signal_handler 34 64 (fun _ => -1) (fun _ => false) SignalType.kTimer).1
        SignalType.kTimer = true ∧
    (install_signal_handler 34 64 (fun _ => -1)
        (install_signal_handler 34 64 (fun _ => -1) (fun _ => false) SignalType.kTimer).1
        SignalType.kTimer).2 = none := by
  refine ⟨?_, ?_, ?_, ?_, ?_⟩ <;> decide

/-- What `install_signal_handler` does in general: with the flag set it returns at once;
otherwise it calls `sigaction`, and sets the flag of that kind, and no other, exactly when
`sigaction` returns -1. -/
theorem install_signal_handler_spec (SIGRTMIN SIGRTMAX : Int) (sigaction : Int → Int)
    (flags : SignalType → Bool) (type : SignalType) :
    (flags type = true →
      install_signal_handler SIGRTMIN SIGRTMAX sigaction flags type = (flags, none)) ∧
    (flags type = false →
      (install_signal_handler SIGRTMIN SIGRTMAX sigaction flags type).2
        = some (SIGRTMIN + type) ∧
      ((install_signal_handler SIGRTMIN SIGRTMAX sigaction flags type).1 type = true
        ↔ sigaction (SIGRTMIN + type) = -1) ∧
      ∀ t, t ≠ type →
        (install_signal_handler SIGRTMIN SIGRTMAX sigaction flags type).1 t = flags t) := by
  constructor
  · intro h
    simp [install_signal_handler, h]
  · intro h
    by_cases hs : sigaction (SIGRTMIN + type) = -1
    · simp [install_signal_handler, h, GetSystemSignal, hs]
      intro t ht
      simp [ht]
    · simp [install_signal_handler, h, GetSystemSignal, hs]

/-- C25: on delivery of the user-callback signal for the thread object at `p`, holding the
queued callback `f`, the handler invokes `f` and nothing else when the interrupted thread's
`alertable_state_` is true, and returns with nothing invoked and the heap unchanged when it is
false; a signal number that maps to none of the four kinds ends in the `assert_always()` of
the default branch, and the number of a kind never does. -/
theorem signal_handler_user_callback (SIGRTMIN : Int) (callbacks : Nat → Heap → Heap)
    (heap : Heap) (alertable_state_ : Bool) (current_thread_ : Option Ptr) (signal : Int)
    (sival_ptr : Nat) :
    (∀ (c : PosixCondition_Thread) (f : Nat),
      signal = SIGRTMIN + SignalType.kThreadUserCallback →
      heap sival_ptr = .Thread c → c.user_callback_ = some f → alertable_state_ = true →
      signal_handler SIGRTMIN callbacks heap alertable_state_ current_thread_ signal sival_ptr
        = SignalOutcome.returned [f] (callbacks f heap)) ∧
    (signal = SIGRTMIN + SignalType.kThreadUserCallback → alertable_state_ = false →
      signal_handler SIGRTMIN callbacks heap alertable_state_ current_thread_ signal sival_ptr
        = SignalOutcome.returned [] heap) ∧
    (∀ (c : PosixCondition_Thread) (f : Nat), c.state_ ≠ State.kUninitialized →
      ∃ c', c.QueueUserCallback (some f) = some c' ∧ c'.user_callback_ = some f ∧
        c'.CallUserCallback = some f) ∧
    ((signal < SIGRTMIN ∨ SIGRTMIN + SignalType.k_Count ≤ signal) →
      signal_handler SIGRTMIN callbacks heap alertable_state_ current_thread_ signal sival_ptr
        = SignalOutcome.fatal) ∧
    (SIGRTMIN ≤ signal → signal < SIGRTMIN + SignalType.k_Count →
      signal_handler SIGRTMIN callbacks heap alertable_state_ current_thread_ signal sival_ptr
        ≠ SignalOutcome.fatal) := by
  refine ⟨?_, ?_, ?_, ?_, ?_⟩
  · intro c f hsig hp hf ha
    have h3 : signal - SIGRTMIN = 3 := by
      simp only [SignalType.kThreadUserCallback, SignalType] at hsig; omega
    simp [signal_handler, GetSystemSignalType, SignalType.kHighResolutionTimer,
      SignalType.kTimer, SignalType.kThreadSuspend, SignalType.kThreadUserCallback, h3, ha, hp,
      PosixCondition_Thread.CallUserCallback, hf]
  · intro hsig ha
    have h3 : signal - SIGRTMIN = 3 := by
      simp only [SignalType.kThreadUserCallback, SignalType] at hsig; omega
    simp [signal_handler, GetSystemSignalType, SignalType.kHighResolutionTimer,
      SignalType.kTimer, SignalType.kThreadSuspend, SignalType.kThreadUserCallback, h3, ha]
  · intro c f hstarted
    have hws : c.WaitStarted = some () := by
      simp [PosixCondition_Thread.WaitStarted, cond_wait, hstarted]
    exact ⟨{ c with user_callback_ := some f },
      by simp only [PosixCondition_Thread.QueueUserCallback, hws], rfl, rfl⟩
  · intro hout
    have h0 : ¬ (signal - SIGRTMIN = 0) := by
      simp only [SignalType.k_Count, SignalType] at hout; omega
    have h1 : ¬ (signal - SIGRTMIN = 1) := by
      simp only [SignalType.k_Count, SignalType] at hout; omega
    have h2 : ¬ (signal - SIGRTMIN = 2) := by
      simp only [SignalType.k_Count, SignalType] at hout; omega
    have h3 : ¬ (signal - SIGRTMIN = 3) := by
      simp only [SignalType.k_Count, SignalType] at hout; omega
    simp only [signal_handler, GetSystemSignalType, SignalType.kHighResolutionTimer,
      SignalType.kTimer, SignalType.kThreadSuspend, SignalType.kThreadUserCallback, h0, h1, h2,
      h3, if_false]
  · intro hlo hhi
    simp only [SignalType.k_Count, SignalType] at hhi
    simp only [signal_handler, GetSystemSignalType, SignalType.kHighResolutionTimer,
      SignalType.kTimer, SignalType.kThreadSuspend, SignalType.kThreadUserCallback]
    have hcases : signal - SIGRTMIN = 0 ∨ signal - SIGRTMIN = 1 ∨ signal - SIGRTMIN = 2 ∨
        signal - SIGRTMIN = 3 := by omega
    rcases hcases with h | h | h | h
    · simp [h]
    · simp only [h]
      norm_num
      split <;> simp
    · simp only [h]
      norm_num
      repeat' split
      all_goals simp
    · simp only [h]
      norm_num
      repeat' split
      all_goals simp

/-- C25 on a host with `SIGRTMIN = 34`: signal 37 delivered to an alertable thread with the
callback 9 queued. -/
theorem signal_handler_user_callback_witness :
    signal_handler 34 (fun _ h => h) (fun _ => .Thread threadQueued) true none 37 0
      = SignalOutcome.returned [9] ((fun _ h => h) 9 (fun _ => .Thread threadQueued)) :=
  (signal_handler_user_callback 34 (fun _ h => h) (fun _ => .Thread threadQueued) true none
    37 0).1 threadQueued 9 (by decide) rfl rfl rfl

/-! ## Theorems: lock scopes -/

/-- The method `Release` is its guard followed, when the guard holds, by its locked
block. -/
theorem Release_guard_then_locked (c : PosixCondition_Semaphore) (release_count : Nat)
    (out : Option Int) :
    c.Release release_count out
      = if c.Release_guard release_count then
          (true, (c.Release_locked release_count out).1, (c.Release_locked release_count out).2)
        else (false, out, c) := by
  unfold PosixCondition_Semaphore.Release PosixCondition_Semaphore.Release_guard
    PosixCondition_Semaphore.Release_locked
  by_cases h : uint32_sub c.maximum_count_ c.count_ ≥ release_count
  · simp [h]
  · simp [h]

/-- C26, the code at the failing input: on a semaphore with count 1 and maximum 2, two
threads call `Release(1, nullptr)`; run one after the other, the first call succeeds and the
guard of the second fails, leaving count 2; interleaved so that both guards are evaluated
before either locked block runs, both guards hold and the count ends at 3, above the
maximum. -/
theorem Release_guard_outside_lock :
    (ReleaseStep.run 1 { count_ := 1, maximum_count_ := 2 }
        [.guard 1, .locked 1, .guard 2, .locked 2]).semaphore
      = { count_ := 2, maximum_count_ := 2 } ∧
    (ReleaseStep.run 1 { count_ := 1, maximum_count_ := 2 }
        [.guard 1, .locked 1, .guard 2, .locked 2]).passed 2 = false ∧
    (ReleaseStep.run 1 { count_ := 1, maximum_count_ := 2 }
        [.guard 1, .guard 2]).passed 1 = true ∧
    (ReleaseStep.run 1 { count_ := 1, maximum_count_ := 2 }
        [.guard 1, .guard 2]).passed 2 = true ∧
    (ReleaseStep.run 1 { count_ := 1, maximum_count_ := 2 }
        [.guard 1, .guard 2, .locked 1, .locked 2]).semaphore
      = { count_ := 3, maximum_count_ := 2 } := by
  refine ⟨?_, ?_, ?_, ?_, ?_⟩ <;> decide

/-! ## Theorems: thread affinity -/

/-- The loop of `set_affinity_mask` puts CPU `j` into the set exactly when the test of
iteration `j` holds. -/
theorem set_affinity_mask_loop (ub : Int → Nat → Int) (mask : Nat) (j : Nat) :
    ∀ (l : List Nat) (s : Nat → Bool),
      (l.foldl (fun cpu_set i =>
          if mask &&& toUInt64 (int_shl ub 1 i) ≠ 0 then CPU_SET i cpu_set else cpu_set) s) j
        = (s j || (decide (j ∈ l) && decide (mask &&& toUInt64 (int_shl ub 1 j) ≠ 0))) := by
  intro l
  induction l with
  | nil => intro s; simp
  | cons a rest ih =>
    intro s
    rw [List.foldl_cons, ih]
    by_cases hc : mask &&& toUInt64 (int_shl ub 1 a) ≠ 0
    · rw [if_pos hc]
      by_cases hja : j = a
      · subst hja
        simp [CPU_SET, hc]
      · simp [CPU_SET, hja]
    · rw [if_neg hc]
      by_cases hja : j = a
      · subst hja
        simp [hc]
      · simp [hja]

/-- C27, the code at the failing input: for the mask `2^32` (bit 32 only),
`set_affinity_mask` puts CPU 31 into the set although bit 31 of the mask is 0, whatever the
shifts by 32 and more yield, because `1 << 31` is the `int` `-2^31`, which converts to the
`uint64_t` with bits 31 to 63 set; and for the set that holds CPU 31 only, `affinity_mask()`
(shifts by 32 and more as on x86) returns the value with bits 31 to 63 set, not `2^31`. -/
theorem affinity_mask_int_shift (ub : Int → Nat → Int) :
    set_affinity_mask ub 4294967296 31 = true ∧
    Nat.testBit 4294967296 31 = false ∧
    toUInt64 (int_shl ub 1 31) = 18446744071562067968 ∧
    set_affinity_mask x86_shl 4294967296 32 = false ∧
    Nat.testBit 4294967296 32 = true ∧
    affinity_mask x86_shl 1024 (fun i => decide (i = 31)) = 18446744071562067968 ∧
    affinity_mask x86_shl 1024 (set_affinity_mask x86_shl 4294967296)
      = 18446744071562067968 := by
  have h31 : toUInt64 (int_shl ub 1 31) = 18446744071562067968 := by
    unfold int_shl
    rw [if_pos (by decide)]
    decide
  refine ⟨?_, by decide, h31, ?_, by decide, ?_, ?_⟩
  · unfold set_affinity_mask
    rw [set_affinity_mask_loop, h31]
    decide
  · unfold set_affinity_mask
    rw [set_affinity_mask_loop]
    decide
  · decide
  · have hset : ∀ j, set_affinity_mask x86_shl 4294967296 j
        = ((fun i => decide (i ∈ List.range 64) &&
            decide (4294967296 &&& toUInt64 (int_shl x86_shl 1 i) ≠ 0)) j) := by
      intro j
      unfold set_affinity_mask
      rw [set_affinity_mask_loop]
      simp
    rw [show set_affinity_mask x86_shl 4294967296 = _ from funext hset]
    decide

/-! ## Theorems: DurationToTimeSpec -/

/-- C30: for a count `n` of nanoseconds in the range of a signed 64-bit integer, the result
`(tv_sec, tv_nsec)` satisfies `tv_sec * 1000000000 + tv_nsec = n` and
`|tv_nsec| < 1000000000`, and both fields are in the 64-bit range; for `n ≥ 0` it is a valid
`timespec`, `0 ≤ tv_nsec < 1000000000` and `tv_sec ≥ 0`; and 0 gives the all-zero
`timespec`. -/
theorem DurationToTimeSpec_exact (n : Int) (hlo : -(2 ^ 63) ≤ n) (hhi : n < 2 ^ 63) :
    (DurationToTimeSpec n).1 * 1000000000 + (DurationToTimeSpec n).2 = n ∧
    |(DurationToTimeSpec n).2| < 1000000000 ∧
    (-(2 ^ 63) ≤ (DurationToTimeSpec n).1 ∧ (DurationToTimeSpec n).1 < 2 ^ 63) ∧
    (0 ≤ n → 0 ≤ (DurationToTimeSpec n).2 ∧ (DurationToTimeSpec n).2 < 1000000000 ∧
      0 ≤ (DurationToTimeSpec n).1) ∧
    DurationToTimeSpec 0 = (0, 0) := by
  have hsum := Int.tdiv_add_tmod n 1000000000
  have hpos : 0 ≤ n → 0 ≤ Int.tmod n 1000000000 ∧ Int.tmod n 1000000000 < 1000000000 ∧
      0 ≤ Int.tdiv n 1000000000 := by
    intro h
    exact ⟨Int.tmod_nonneg _ h, Int.tmod_lt_of_pos _ (by norm_num),
      Int.tdiv_nonneg h (by norm_num)⟩
  have hneg : n ≤ 0 → Int.tmod n 1000000000 ≤ 0 ∧ -1000000000 < Int.tmod n 1000000000 := by
    intro h
    have h1 : Int.tmod (-n) 1000000000 = -Int.tmod n 1000000000 := by
      rw [Int.tmod_def, Int.tmod_def, Int.neg_tdiv]
      omega
    have h2 := Int.tmod_nonneg (1000000000 : Int) (show 0 ≤ -n by omega)
    have h3 := Int.tmod_lt_of_pos (-n) (show (0 : Int) < 1000000000 by norm_num)
    omega
  have habs : |Int.tmod n 1000000000| < 1000000000 := by
    rw [abs_lt]
    rcases le_total 0 n with h | h
    · have := hpos h; omega
    · have := hneg h; omega
  simp only [DurationToTimeSpec]
  refine ⟨by omega, habs, ?_, hpos, by decide⟩
  rw [abs_lt] at habs
  omega

/-- C30 at one and a half seconds. -/
theorem DurationToTimeSpec_exact_witness :
    (DurationToTimeSpec 1500000000).1 * 1000000000 + (DurationToTimeSpec 1500000000).2
      = 1500000000 :=
  (DurationToTimeSpec_exact 1500000000 (by decide) (by decide)).1

/-- The split of a negative count, evaluated: the remainder carries the sign. -/
theorem DurationToTimeSpec_negative :
    DurationToTimeSpec (-1500000000) = (-1, -500000000) := by
  decide

end xe.threading
